import Mathlib

/-!
# labs-go-1: postal code to temperature handler

A shallow embedding of `src/main.go` (the `weatherHandler` HTTP handler and
`isNumeric`) together with the parts of the Go standard library whose
behaviour decides what the handler answers: `strings.TrimPrefix`,
`strconv.ParseInt`, `fmt.Sprintf`, `url.QueryEscape`, `encoding/json`
decoding into the three response structs, `float64` arithmetic, `http.Error`
and `json.Encoder.Encode`.

Modelling conventions.

* A Go `string` is a byte sequence. The strings of this development are the
  ones that are valid UTF-8, represented as Lean `String`s; `len` is the
  number of UTF-8 bytes.
* The outside world (the two HTTP services) is an explicit state `σ` threaded
  through `Client.Get`; the handler returns the response it wrote, the list of
  URLs it requested, the diagnostics it printed and the final world state.
* `float64` is IEEE 754 binary64 with round-to-nearest-even, modelled exactly
  on integers (`F64`).
-/

namespace CepWeather

/-! ## Strings -/

/-- Go `len(s)`: the number of bytes of `s`. -/
def len (s : String) : Nat := s.utf8ByteSize

/-- Go `strings.HasPrefix` on character lists. -/
def hasPrefixChars : List Char → List Char → Bool
  | _, [] => true
  | [], _ :: _ => false
  | c :: cs, p :: ps => c == p && hasPrefixChars cs ps

/-- Go `strings.TrimPrefix(s, p)`: `s` without the leading `p` when `s` starts
with `p`, and `s` unchanged otherwise. -/
def TrimPrefix (s p : String) : String :=
  if hasPrefixChars s.data p.data then ⟨s.data.drop p.data.length⟩ else s

/-! ## strconv.ParseUint / strconv.ParseInt (base 10, bit size 64) -/

/-- The two kinds of `strconv.NumError`. -/
inductive NumError where
  | syntaxError
  | rangeError
deriving DecidableEq, Repr

/-- Go `lower(c) = c | ('x' - 'X')` of strconv. -/
def lower (c : Nat) : Nat := c ||| 0x20

/-- The digit loop of `strconv.ParseUint(s, 10, 64)`, started with the
accumulator `n`. A byte that is neither a decimal digit nor an ASCII letter
is a syntax error, and so is a letter (its digit value is at least 10); a
character outside ASCII is made of such bytes. `n * 10` is checked against the
cutoff `maxUint64/10 + 1` and the addition against wrap-around at 2^64. -/
def parseUintLoop : List Char → Nat → Except NumError Nat
  | [], n => .ok n
  | c :: cs, n =>
    if '0'.toNat ≤ c.toNat ∧ c.toNat ≤ '9'.toNat then
      let d := c.toNat - '0'.toNat
      if d ≥ 10 then .error .syntaxError
      else if n ≥ (2 ^ 64 - 1) / 10 + 1 then .error .rangeError
      else
        let n10 := n * 10
        let n1 := (n10 + d) % 2 ^ 64
        if n1 < n10 ∨ n1 > 2 ^ 64 - 1 then .error .rangeError
        else parseUintLoop cs n1
    else if 'a'.toNat ≤ lower c.toNat ∧ lower c.toNat ≤ 'z'.toNat then
      let d := lower c.toNat - 'a'.toNat + 10
      if d ≥ 10 then .error .syntaxError
      else if n ≥ (2 ^ 64 - 1) / 10 + 1 then .error .rangeError
      else
        let n10 := n * 10
        let n1 := (n10 + d) % 2 ^ 64
        if n1 < n10 ∨ n1 > 2 ^ 64 - 1 then .error .rangeError
        else parseUintLoop cs n1
    else .error .syntaxError

/-- Go `strconv.ParseUint(s, 10, 64)`. -/
def ParseUint (s : List Char) : Except NumError Nat :=
  match s with
  | [] => .error .syntaxError
  | _ :: _ => parseUintLoop s 0

/-- The range check `strconv.ParseInt` applies to the magnitude it got from
`ParseUint` (a range error of `ParseUint` carries the magnitude 2^64 - 1 and
falls through to this check). -/
def parseIntFinish (neg : Bool) (r : Except NumError Nat) : Except NumError Int :=
  match r with
  | .error .syntaxError => .error .syntaxError
  | .error .rangeError => .error .rangeError
  | .ok un =>
    if !neg && decide (un ≥ 2 ^ 63) then .error .rangeError
    else if neg && decide (un > 2 ^ 63) then .error .rangeError
    else .ok (if neg then -(un : Int) else (un : Int))

/-- Go `strconv.ParseInt(s, 10, 64)`: an optional leading `+` or `-`, then
`ParseUint` on the rest. -/
def ParseInt (s : String) : Except NumError Int :=
  match s.data with
  | [] => .error .syntaxError
  | '+' :: rest => parseIntFinish false (ParseUint rest)
  | '-' :: rest => parseIntFinish true (ParseUint rest)
  | c :: rest => parseIntFinish false (ParseUint (c :: rest))

/-- The function `isNumeric` of main.go: `strconv.ParseInt(s, 10, 64)` returns no error. -/
def isNumeric (s : String) : Bool :=
  match ParseInt s with
  | .ok _ => true
  | .error _ => false

/-! ## float64 -/

/-- Number of binary digits of `n`, by repeated halving (fuel `f`). -/
def bitLenAux : Nat → Nat → Nat
  | 0, _ => 0
  | f + 1, n => if n = 0 then 0 else bitLenAux f (n / 2) + 1

/-- Number of binary digits of `n` (0 for 0). -/
def bitLen (n : Nat) : Nat := bitLenAux n n

/-- An IEEE 754 binary64 value. `finite neg m e` is `(-1)^neg * m * 2^e`, kept
in the canonical form of the format: `m < 2^53`, `-1074 ≤ e ≤ 971`, and
`2^52 ≤ m` unless `e = -1074` (subnormals and the two zeros). -/
inductive F64 where
  | finite (neg : Bool) (m : Nat) (e : Int)
  | inf (neg : Bool)
  | nan
deriving DecidableEq, Repr

namespace F64

/-- Round the exact value `(-1)^neg * m * 2^e` to binary64, to nearest with
ties to even; a magnitude of 2^1024 or more after rounding overflows to an
infinity. -/
def round (neg : Bool) (m : Nat) (e : Int) : F64 :=
  if m = 0 then .finite neg 0 (-1074) else
  let e1 : Int := max (e + (bitLen m : Int) - 53) (-1074)
  if e1 ≤ e then
    if 971 < e1 then .inf neg else .finite neg (m * 2 ^ (e - e1).toNat) e1
  else
    let sh := (e1 - e).toNat
    let q := m / 2 ^ sh
    let r := m % 2 ^ sh
    let half := 2 ^ (sh - 1)
    let q1 := if half < r ∨ (r = half ∧ q % 2 = 1) then q + 1 else q
    let q2 := if q1 = 2 ^ 53 then 2 ^ 52 else q1
    let e2 := if q1 = 2 ^ 53 then e1 + 1 else e1
    if 971 < e2 then .inf neg else .finite neg q2 e2

/-- Go `x * y` on float64. -/
def mul : F64 → F64 → F64
  | .nan, _ => .nan
  | _, .nan => .nan
  | .inf s, .inf t => .inf (xor s t)
  | .inf s, .finite t m _ => if m = 0 then .nan else .inf (xor s t)
  | .finite s m _, .inf t => if m = 0 then .nan else .inf (xor s t)
  | .finite s m e, .finite t n f => round (xor s t) (m * n) (e + f)

/-- Go `x + y` on float64. An exact sum of zero is `+0`, except that
`-0 + -0` is `-0`. -/
def add : F64 → F64 → F64
  | .nan, _ => .nan
  | _, .nan => .nan
  | .inf s, .inf t => if s = t then .inf s else .nan
  | .inf s, .finite _ _ _ => .inf s
  | .finite _ _ _, .inf t => .inf t
  | .finite s m e, .finite t n f =>
    let e0 := min e f
    let a : Int :=
      if s then -((m * 2 ^ (e - e0).toNat : Nat) : Int) else ((m * 2 ^ (e - e0).toNat : Nat) : Int)
    let b : Int :=
      if t then -((n * 2 ^ (f - e0).toNat : Nat) : Int) else ((n * 2 ^ (f - e0).toNat : Nat) : Int)
    let c := a + b
    if c = 0 then .finite (s && t) 0 (-1074) else round (decide (c < 0)) c.natAbs e0

/-- The binary64 value nearest to the decimal `(-1)^neg * d * 10^x`: what the Go
compiler does to a decimal constant and `strconv.ParseFloat` to a decimal
literal. For `x < 0` the quotient is taken with 64 spare bits and a sticky bit,
which rounds like the exact quotient. -/
def ofDecimal (neg : Bool) (d : Nat) (x : Int) : F64 :=
  if 0 ≤ x then round neg (d * 10 ^ x.toNat) 0
  else
    let p := 10 ^ (-x).toNat
    let s := bitLen p + 64
    let q := d * 2 ^ s / p
    let sticky := if d * 2 ^ s % p = 0 then 0 else 1
    round neg (2 * q + sticky) (-(s : Int) - 1)

/-- The float64 of a natural number constant. -/
def ofNat (n : Nat) : F64 := ofDecimal false n 0

/-- Go `math.IsInf(f, 0) || math.IsNaN(f)`. -/
def isInfOrNaN : F64 → Bool
  | .finite _ _ _ => false
  | .inf _ => true
  | .nan => true

/-- The zero value of a Go float64 variable, `+0`. -/
def zero : F64 := .finite false 0 (-1074)

end F64

/-- Value of a run of decimal digits, continuing from `n`. -/
def digitsValue : List Char → Nat → Nat
  | [], n => n
  | c :: cs, n => digitsValue cs (n * 10 + (c.toNat - '0'.toNat))

/-- The exponent part of a decimal literal: nothing, or `e`/`E`, an optional
sign and at least one digit. -/
def parseExponent : List Char → Option Int
  | [] => some 0
  | c :: cs =>
    if c = 'e' ∨ c = 'E' then
      match cs with
      | '+' :: ds => if ds ≠ [] ∧ ds.all Char.isDigit then some (digitsValue ds 0) else none
      | '-' :: ds => if ds ≠ [] ∧ ds.all Char.isDigit then some (-(digitsValue ds 0 : Int)) else none
      | ds => if ds ≠ [] ∧ ds.all Char.isDigit then some (digitsValue ds 0) else none
    else none

/-- Read a decimal literal (optional `-`, digits, optional fraction, optional
exponent), the only form of number the JSON scanner lets through, as
`(-1)^neg * d * 10^x`; `none` for any other text. -/
def decimalParts (lit : String) : Option (Bool × Nat × Int) :=
  let neg := lit.data.head? = some '-'
  let body := if neg then lit.data.drop 1 else lit.data
  let ip := body.takeWhile Char.isDigit
  let r1 := body.dropWhile Char.isDigit
  let fp := match r1 with
    | '.' :: r => r.takeWhile Char.isDigit
    | _ => []
  let r2 := match r1 with
    | '.' :: r => r.dropWhile Char.isDigit
    | _ => r1
  if ip = [] then none
  else if r1.head? = some '.' ∧ fp = [] then none
  else
    match parseExponent r2 with
    | none => none
    | some x => some (decide neg, digitsValue (ip ++ fp) 0, x - (fp.length : Int))

/-- Go `strconv.ParseFloat(lit, 64)` on a decimal literal: the nearest float64,
and an error (`none`) when that is an infinity. -/
def ParseFloat (lit : String) : Option F64 :=
  match decimalParts lit with
  | none => none
  | some (neg, d, x) =>
    if (F64.ofDecimal neg d x).isInfOrNaN then none else some (F64.ofDecimal neg d x)

/-! ## fmt.Sprintf and url.QueryEscape -/

/-- What `fmt` appends for operands no verb consumed:
`%!(EXTRA string=a, string=b)`. -/
def extraArgs (args : List String) : String :=
  match args with
  | [] => ""
  | _ :: _ => "%!(EXTRA " ++ ", ".intercalate (args.map fun a => "string=" ++ a) ++ ")"

/-- The formatting loop of `fmt.Sprintf` for string operands, on the fragment
of the format language made of literal text and the directives `%s`, `%v`
(the operand itself), `%%`, a verb with no operand left (`%!c(MISSING)`), a
`%` at the end (`%!(NOVERB)`) and operands left over. Any other character
after `%` is printed in the bad-verb form `%!c(string=operand)`, which is
what Go prints for the verbs that do not apply to a string; flags, widths,
precisions, argument indexes and the verbs `q`, `x`, `X`, `T`, `w` are
outside the fragment. -/
def doPrintf : List Char → List String → String
  | [], args => extraArgs args
  | ['%'], args => "%!(NOVERB)" ++ extraArgs args
  | '%' :: '%' :: cs, args => "%" ++ doPrintf cs args
  | '%' :: v :: cs, [] => "%!" ++ String.singleton v ++ "(MISSING)" ++ doPrintf cs []
  | '%' :: v :: cs, a :: args =>
    (if v = 's' ∨ v = 'v' then a else "%!" ++ String.singleton v ++ "(string=" ++ a ++ ")")
      ++ doPrintf cs args
  | c :: cs, args => String.singleton c ++ doPrintf cs args

/-- Go `fmt.Sprintf(format, args...)` with string operands. -/
def Sprintf (format : String) (args : List String) : String :=
  doPrintf format.data args

/-- The UTF-8 bytes of a string. -/
def utf8Bytes (s : String) : List Nat :=
  s.data.flatMap fun c => (String.utf8EncodeChar c).map UInt8.toNat

/-- Go `shouldEscape(c, encodeQueryComponent)` of net/url: everything but
ASCII letters, digits and `-`, `_`, `.`, `~` is escaped. -/
def shouldEscape (b : Nat) : Bool :=
  !((97 ≤ b && b ≤ 122) || (65 ≤ b && b ≤ 90) || (48 ≤ b && b ≤ 57)
    || b = 45 || b = 95 || b = 46 || b = 126)

/-- One digit of Go `upperhex`. -/
def upperhex (n : Nat) : Char := "0123456789ABCDEF".data.getD n '0'

/-- How `url.QueryEscape` writes one byte: a space as `+`, an escaped byte
as `%XX`, any other byte as itself. -/
def escapeByte (b : Nat) : List Char :=
  if b = 32 then ['+']
  else if shouldEscape b then ['%', upperhex (b / 16), upperhex (b % 16)]
  else [Char.ofNat b]

/-- Go `url.QueryEscape(s)`. -/
def QueryEscape (s : String) : String := ⟨(utf8Bytes s).flatMap escapeByte⟩

/-! ## encoding/json: reading one value -/

/-- A JSON value as the decoder sees it; a number keeps its literal text. -/
inductive JSON where
  | null
  | bool (b : Bool)
  | number (lit : String)
  | string (s : String)
  | array (elems : List JSON)
  | object (members : List (String × JSON))

/-- Skip JSON white space: space, tab, carriage return, line feed. -/
def skipWS : List Char → List Char
  | [] => []
  | c :: cs => if c = ' ' ∨ c = '\t' ∨ c = '\r' ∨ c = '\n' then skipWS cs else c :: cs

/-- Value of one hexadecimal digit of a `\u` escape. -/
def hexVal (c : Char) : Option Nat :=
  if '0' ≤ c ∧ c ≤ '9' then some (c.toNat - '0'.toNat)
  else if 'a' ≤ c ∧ c ≤ 'f' then some (c.toNat - 'a'.toNat + 10)
  else if 'A' ≤ c ∧ c ≤ 'F' then some (c.toNat - 'A'.toNat + 10)
  else none

/-- Go `getu4`: the code unit written by four hexadecimal digits. -/
def getu4 (a b c d : Char) : Option Nat :=
  match hexVal a, hexVal b, hexVal c, hexVal d with
  | some x, some y, some z, some w => some (((x * 16 + y) * 16 + z) * 16 + w)
  | _, _, _, _ => none

/-- The character of a one-letter escape of a JSON string. -/
def unescape (e : Char) : Option Char :=
  if e = '"' then some '"'
  else if e = '\\' then some '\\'
  else if e = '/' then some '/'
  else if e = 'b' then some (Char.ofNat 8)
  else if e = 'f' then some (Char.ofNat 12)
  else if e = 'n' then some '\n'
  else if e = 'r' then some '\r'
  else if e = 't' then some '\t'
  else none

/-- Put a code unit in front of the units a string scan returns. -/
def consUnit (u : Nat) : Option (List Nat × List Char) → Option (List Nat × List Char)
  | none => none
  | some (s, rest) => some (u :: s, rest)

/-- Scan a JSON string after its opening quote, up to the closing quote: its
code units (a character stands for itself, a `\u` escape for the 16-bit unit
it writes) and the input left. A control character below 0x20 and an unknown
escape are syntax errors. -/
def scanString : List Char → Option (List Nat × List Char)
  | [] => none
  | '"' :: rest => some ([], rest)
  | '\\' :: 'u' :: a :: b :: c :: d :: rest =>
    match getu4 a b c d with
    | none => none
    | some r => consUnit r (scanString rest)
  | '\\' :: e :: rest =>
    match unescape e with
    | some c => consUnit c.toNat (scanString rest)
    | none => none
  | c :: rest => if c.toNat < 0x20 ∨ c = '\\' then none else consUnit c.toNat (scanString rest)

/-- The text of scanned code units: half of a surrogate pair is joined with a
low half that follows it, and is U+FFFD when none follows. -/
def joinUnits : List Nat → List Char
  | [] => []
  | [u] => [if 0xD800 ≤ u ∧ u < 0xE000 then Char.ofNat 0xFFFD else Char.ofNat u]
  | u :: v :: rest =>
    if 0xD800 ≤ u ∧ u < 0xE000 then
      if u < 0xDC00 ∧ 0xDC00 ≤ v ∧ v < 0xE000 then
        Char.ofNat ((u - 0xD800) * 1024 + (v - 0xDC00) + 0x10000) :: joinUnits rest
      else Char.ofNat 0xFFFD :: joinUnits (v :: rest)
    else Char.ofNat u :: joinUnits (v :: rest)

/-- Scan and unquote a JSON string after its opening quote. -/
def parseString (cs : List Char) : Option (List Char × List Char) :=
  match scanString cs with
  | none => none
  | some (us, rest) => some (joinUnits us, rest)

/-- The optional fraction of a number literal: a dot and at least one digit. -/
def scanFraction (cs : List Char) : Option (List Char × List Char) :=
  match cs with
  | '.' :: r =>
    if r.takeWhile Char.isDigit = [] then none
    else some ('.' :: r.takeWhile Char.isDigit, r.dropWhile Char.isDigit)
  | _ => some ([], cs)

/-- The optional exponent of a number literal: `e` or `E`, an optional sign and
at least one digit. -/
def scanExponent (cs : List Char) : Option (List Char × List Char) :=
  match cs with
  | [] => some ([], [])
  | c :: r =>
    if c = 'e' ∨ c = 'E' then
      let sg := match r with
        | '+' :: _ => ['+']
        | '-' :: _ => ['-']
        | _ => []
      let r1 := r.drop sg.length
      if r1.takeWhile Char.isDigit = [] then none
      else some (c :: sg ++ r1.takeWhile Char.isDigit, r1.dropWhile Char.isDigit)
    else some ([], cs)

/-- The integer part of a number literal: `0`, or a digit 1-9 followed by digits. -/
def scanInteger (cs : List Char) : Option (List Char × List Char) :=
  match cs with
  | [] => none
  | c :: r =>
    if c = '0' then some (['0'], r)
    else if '1' ≤ c ∧ c ≤ '9' then some (cs.takeWhile Char.isDigit, cs.dropWhile Char.isDigit)
    else none

/-- Scan a JSON number literal: its text and the input left. -/
def parseNumber (cs : List Char) : Option (List Char × List Char) :=
  let sg := match cs with
    | '-' :: _ => ['-']
    | _ => []
  match scanInteger (cs.drop sg.length) with
  | none => none
  | some (ip, r1) =>
    match scanFraction r1 with
    | none => none
    | some (fp, r2) =>
      match scanExponent r2 with
      | none => none
      | some (ep, r3) => some (sg ++ ip ++ fp ++ ep, r3)

/-- The nesting limit of the JSON scanner (`maxNestingDepth`). -/
def maxNestingDepth : Nat := 10000

mutual
/-- Read one JSON value, skipping white space before it: the value and the
input left. `depth` counts the arrays and objects open around it; opening one
more than `maxNestingDepth` is an error. The first argument is recursion fuel. -/
def parseValue : Nat → Nat → List Char → Option (JSON × List Char)
  | 0, _, _ => none
  | fuel + 1, depth, cs =>
    match skipWS cs with
    | '\x7b' :: rest =>
      if maxNestingDepth ≤ depth then none
      else
        match skipWS rest with
        | '\x7d' :: rest2 => some (.object [], rest2)
        | _ =>
          match parseMembers fuel (depth + 1) rest with
          | some (ms, rest2) => some (.object ms, rest2)
          | none => none
    | '[' :: rest =>
      if maxNestingDepth ≤ depth then none
      else
        match skipWS rest with
        | ']' :: rest2 => some (.array [], rest2)
        | _ =>
          match parseElements fuel (depth + 1) rest with
          | some (es, rest2) => some (.array es, rest2)
          | none => none
    | '"' :: rest =>
      match parseString rest with
      | some (s, rest2) => some (.string ⟨s⟩, rest2)
      | none => none
    | 't' :: 'r' :: 'u' :: 'e' :: rest => some (.bool true, rest)
    | 'f' :: 'a' :: 'l' :: 's' :: 'e' :: rest => some (.bool false, rest)
    | 'n' :: 'u' :: 'l' :: 'l' :: rest => some (.null, rest)
    | other =>
      match parseNumber other with
      | some (lit, rest) => some (.number ⟨lit⟩, rest)
      | none => none
/-- Read the members of an object after its opening brace (at least one
member), up to and including the closing brace. -/
def parseMembers : Nat → Nat → List Char → Option (List (String × JSON) × List Char)
  | 0, _, _ => none
  | fuel + 1, depth, cs =>
    match skipWS cs with
    | '"' :: rest =>
      match parseString rest with
      | none => none
      | some (k, r1) =>
        match skipWS r1 with
        | ':' :: r2 =>
          match parseValue fuel depth r2 with
          | none => none
          | some (v, r3) =>
            match skipWS r3 with
            | ',' :: r4 =>
              match parseMembers fuel depth r4 with
              | some (ms, r5) => some ((⟨k⟩, v) :: ms, r5)
              | none => none
            | '\x7d' :: r4 => some ([(⟨k⟩, v)], r4)
            | _ => none
        | _ => none
    | _ => none
/-- Read the elements of an array after its opening bracket (at least one
element), up to and including the closing bracket. -/
def parseElements : Nat → Nat → List Char → Option (List JSON × List Char)
  | 0, _, _ => none
  | fuel + 1, depth, cs =>
    match parseValue fuel depth cs with
    | none => none
    | some (v, r1) =>
      match skipWS r1 with
      | ',' :: r2 =>
        match parseElements fuel depth r2 with
        | some (es, r3) => some (v :: es, r3)
        | none => none
      | ']' :: r2 => some ([v], r2)
      | _ => none
end

/-- What `json.Decoder.Decode` reads from a body: the first JSON value of the
stream, or `none` for a syntax error or a body that ends too early. What
follows the value is left unread. The fuel, above twice the length of the
body, is never used up (`parseValue_fuel_adequate`). -/
def readValue (body : String) : Option JSON :=
  match parseValue (2 * body.data.length + 1) 0 body.data with
  | some (v, _) => some v
  | none => none

/-! ## encoding/json: storing a value into the structs of main.go -/

/-- The key folding of encoding/json on one character: ASCII letters to upper
case, and the two characters outside ASCII that fold to an ASCII letter,
U+017F to `S` and U+212A to `K`. -/
def foldRune (c : Char) : Char :=
  if 'a' ≤ c ∧ c ≤ 'z' then Char.ofNat (c.toNat - 32)
  else if c.toNat = 0x17F then 'S'
  else if c.toNat = 0x212A then 'K'
  else c

/-- Go `foldName` on a key. -/
def foldName (s : String) : List Char := s.data.map foldRune

/-- The field of a struct an object key selects: the field whose JSON name is
the key, or else the first whose name equals it up to case folding. -/
def matchField (names : List String) (key : String) : Option String :=
  match names.find? fun n => n == key with
  | some n => some n
  | none => names.find? fun n => foldName n == foldName key

/-- Store a JSON value into a `string` field: a string is stored, `null`
leaves the field as it is, anything else is an UnmarshalTypeError (`true`). -/
def storeString (cur : String) (v : JSON) : String × Bool :=
  match v with
  | .string s => (s, false)
  | .null => (cur, false)
  | _ => (cur, true)

/-- Store a JSON value into a `float64` field: a number in range is stored,
`null` leaves the field as it is, anything else is an UnmarshalTypeError. -/
def storeFloat (cur : F64) (v : JSON) : F64 × Bool :=
  match v with
  | .number lit =>
    match ParseFloat lit with
    | some x => (x, false)
    | none => (cur, true)
  | .null => (cur, false)
  | _ => (cur, true)

/-- Store a JSON value into an `int` field: a number `strconv.ParseInt` accepts
is stored, `null` leaves the field as it is, anything else is an
UnmarshalTypeError. -/
def storeInt (cur : Int) (v : JSON) : Int × Bool :=
  match v with
  | .number lit =>
    match ParseInt lit with
    | .ok n => (n, false)
    | .error _ => (cur, true)
  | .null => (cur, false)
  | _ => (cur, true)

/-- The struct `ViaCEPResponse` of main.go. -/
structure ViaCEPResponse where
  Cep : String
  Logradouro : String
  Localidade : String
  Uf : String
  Erro : String
deriving DecidableEq, Repr

/-- The zero value of `ViaCEPResponse` (`var via ViaCEPResponse`). -/
def ViaCEPResponse.zero : ViaCEPResponse := ⟨"", "", "", "", ""⟩

/-- Store one object member into a `ViaCEPResponse`; a key that selects no
field is skipped. -/
def ViaCEPResponse.setField (r : ViaCEPResponse) (key : String) (v : JSON) :
    ViaCEPResponse × Bool :=
  match matchField ["cep", "logradouro", "localidade", "uf", "erro"] key with
  | some "cep" => ({ r with Cep := (storeString r.Cep v).1 }, (storeString r.Cep v).2)
  | some "logradouro" =>
    ({ r with Logradouro := (storeString r.Logradouro v).1 }, (storeString r.Logradouro v).2)
  | some "localidade" =>
    ({ r with Localidade := (storeString r.Localidade v).1 }, (storeString r.Localidade v).2)
  | some "uf" => ({ r with Uf := (storeString r.Uf v).1 }, (storeString r.Uf v).2)
  | some "erro" => ({ r with Erro := (storeString r.Erro v).1 }, (storeString r.Erro v).2)
  | _ => (r, false)

/-- Store the members of an object, in order, with a per-member store `set`;
the flag tells whether some member was a type error (the decoder keeps going
and reports the first one at the end). -/
def storeMembers {α : Type} (set : α → String → JSON → α × Bool) :
    List (String × JSON) → α → α × Bool
  | [], r => (r, false)
  | (k, v) :: ms, r =>
    ((storeMembers set ms (set r k v).1).1, (set r k v).2 || (storeMembers set ms (set r k v).1).2)

/-- Store a JSON value into a struct: an object member by member, `null`
leaves the struct as it is, anything else is an UnmarshalTypeError. -/
def storeStruct {α : Type} (set : α → String → JSON → α × Bool) (r : α) (v : JSON) : α × Bool :=
  match v with
  | .object ms => storeMembers set ms r
  | .null => (r, false)
  | _ => (r, true)

/-- The call `json.NewDecoder(body).Decode(&via)` on a zero `via`: the struct
after the call, or `none` when Decode returns an error. -/
def decodeViaCEP (body : String) : Option ViaCEPResponse :=
  match readValue body with
  | none => none
  | some v =>
    if (storeStruct ViaCEPResponse.setField ViaCEPResponse.zero v).2 then none
    else some (storeStruct ViaCEPResponse.setField ViaCEPResponse.zero v).1

/-- The struct `WeatherAPIResponse` of main.go: `Current.TempC`. -/
structure WeatherAPIResponse where
  CurrentTempC : F64
deriving DecidableEq, Repr

/-- The zero value of `WeatherAPIResponse`. -/
def WeatherAPIResponse.zero : WeatherAPIResponse := ⟨F64.zero⟩

/-- Store one member of the object of `current` (field `temp_c`). -/
def WeatherAPIResponse.setCurrentField (r : WeatherAPIResponse) (key : String) (v : JSON) :
    WeatherAPIResponse × Bool :=
  match matchField ["temp_c"] key with
  | some "temp_c" => (⟨(storeFloat r.CurrentTempC v).1⟩, (storeFloat r.CurrentTempC v).2)
  | _ => (r, false)

/-- Store one member of the top object of a `WeatherAPIResponse` (field `current`). -/
def WeatherAPIResponse.setField (r : WeatherAPIResponse) (key : String) (v : JSON) :
    WeatherAPIResponse × Bool :=
  match matchField ["current"] key with
  | some "current" => storeStruct WeatherAPIResponse.setCurrentField r v
  | _ => (r, false)

/-- The call `json.NewDecoder(body).Decode(&weather)` on a zero `weather`: the
struct after the call, or `none` when Decode returns an error. -/
def decodeWeather (body : String) : Option WeatherAPIResponse :=
  match readValue body with
  | none => none
  | some v =>
    if (storeStruct WeatherAPIResponse.setField WeatherAPIResponse.zero v).2 then none
    else some (storeStruct WeatherAPIResponse.setField WeatherAPIResponse.zero v).1

/-- The struct `ErrorResponse` of main.go: `Error.Code` and `Error.Message`. -/
structure ErrorResponse where
  ErrorCode : Int
  ErrorMessage : String
deriving DecidableEq, Repr

/-- The zero value of `ErrorResponse`. -/
def ErrorResponse.zero : ErrorResponse := ⟨0, ""⟩

/-- Store one member of the object of `error` (fields `code`, `message`). -/
def ErrorResponse.setErrorField (r : ErrorResponse) (key : String) (v : JSON) :
    ErrorResponse × Bool :=
  match matchField ["code", "message"] key with
  | some "code" => ({ r with ErrorCode := (storeInt r.ErrorCode v).1 }, (storeInt r.ErrorCode v).2)
  | some "message" =>
    ({ r with ErrorMessage := (storeString r.ErrorMessage v).1 }, (storeString r.ErrorMessage v).2)
  | _ => (r, false)

/-- Store one member of the top object of an `ErrorResponse` (field `error`). -/
def ErrorResponse.setField (r : ErrorResponse) (key : String) (v : JSON) :
    ErrorResponse × Bool :=
  match matchField ["error"] key with
  | some "error" => storeStruct ErrorResponse.setErrorField r v
  | _ => (r, false)

/-- The call `json.NewDecoder(body).Decode(&errResp)` on a zero `errResp`,
whose error main.go drops: the struct after the call, which keeps its zero
value on a syntax error and whatever was stored before and after a type
error. -/
def decodeErrorResponse (body : String) : ErrorResponse :=
  match readValue body with
  | none => ErrorResponse.zero
  | some v => (storeStruct ErrorResponse.setField ErrorResponse.zero v).1

/-! ## net/http: the client and the response writer -/

/-- The part of `*http.Response` the handler reads. -/
structure HTTPResponse where
  StatusCode : Int
  Body : String
deriving DecidableEq, Repr

/-- An `*http.Client` over a world state `σ`: `Get url` answers with a response
or a transport error (the error text) and moves the world on. -/
structure Client (σ : Type) where
  Get : String → σ → Except String HTTPResponse × σ

/-- The body the handler wrote: plain text, or the JSON encoding of a
`map[string]float64` given by its members in the key order of the encoder
(the text of the numbers is not modelled), newline included. -/
inductive Body where
  | text (s : String)
  | json (members : List (String × F64))
deriving DecidableEq, Repr

/-- What the handler wrote to its `http.ResponseWriter`. -/
structure Response where
  status : Nat
  contentType : String
  body : Body
deriving DecidableEq, Repr

/-- Go `http.Error(w, msg, code)`: content type `text/plain; charset=utf-8`,
the status code, and the message followed by a newline. -/
def httpError (msg : String) (code : Nat) : Response :=
  { status := code, contentType := "text/plain; charset=utf-8", body := .text (msg ++ "\n") }

/-- What `json.NewEncoder(w).Encode(m)` writes for a `map[string]float64` with
the given members (listed by increasing key, the order of the encoder): the
object, or nothing at all when a value is an infinity or a NaN (Encode then
returns an UnsupportedValueError before writing). -/
def encodeMap (m : List (String × F64)) : Body :=
  if m.any fun kv => kv.2.isInfOrNaN then .text "" else .json m

/-- Go `os.Getenv(key)`: the value of the variable, empty when it is not set. -/
def Getenv (env : String → Option String) (key : String) : String :=
  (env key).getD ""

/-- A line main.go prints to standard output. -/
inductive LogEvent where
  | viaCEPFetchError (err : String)
  | viaCEPDecodeError
  | weatherFetchError (err : String)
  | weatherAPIError (message : String)
deriving DecidableEq, Repr

/-- What one run of the handler did: the response written, the URLs requested
with `client.Get` in order, the lines printed, and the world afterwards. -/
structure Outcome (σ : Type) where
  response : Response
  calls : List String
  log : List LogEvent
  world : σ

/-! ## main.go: weatherHandler -/

/-- The Celsius to Fahrenheit step of main.go, `c*1.8 + 32`: a float64 product
rounded, then a float64 sum rounded, with the constant 1.8 rounded to float64
(the two operations are not fused into one multiply-add). -/
def fahrenheit (c : F64) : F64 := F64.add (F64.mul c (F64.ofDecimal false 18 (-1))) (F64.ofNat 32)

/-- The Celsius to Kelvin step of main.go, `c + 273`. -/
def kelvin (c : F64) : F64 := F64.add c (F64.ofNat 273)

/-- The handler `weatherHandler(client, viaCEPURL, weatherAPIURL)` of main.go
run on a request with URL path `path`, in environment `env` and world `w`. -/
def weatherHandler {σ : Type} (client : Client σ) (viaCEPURL weatherAPIURL : String)
    (env : String → Option String) (path : String) (w : σ) : Outcome σ :=
  let cep := TrimPrefix path "/"
  if len cep != 8 || !isNumeric cep then
    ⟨httpError "invalid zipcode" 422, [], [], w⟩
  else
    let viaURL := Sprintf viaCEPURL [cep]
    match client.Get viaURL w with
    | (.error err, w1) =>
      ⟨httpError "can not find zipcode" 404, [viaURL], [.viaCEPFetchError err], w1⟩
    | (.ok viaResp, w1) =>
      match decodeViaCEP viaResp.Body with
      | none =>
        ⟨httpError "can not decode viacep response" 500, [viaURL], [.viaCEPDecodeError], w1⟩
      | some via =>
        if via.Erro != "" || via.Localidade == "" then
          ⟨httpError "can not find zipcode" 404, [viaURL], [], w1⟩
        else
          let apiKey := Getenv env "WEATHER_API_KEY"
          if apiKey == "" then
            ⟨httpError "internal server error: API key missing" 500, [viaURL], [], w1⟩
          else
            let fullWeatherURL := Sprintf weatherAPIURL [apiKey, QueryEscape via.Localidade]
            match client.Get fullWeatherURL w1 with
            | (.error err, w2) =>
              ⟨httpError "internal server error: weather API failure" 500,
                [viaURL, fullWeatherURL], [.weatherFetchError err], w2⟩
            | (.ok weatherResp, w2) =>
              if weatherResp.StatusCode != 200 then
                ⟨httpError "can not find weather for location" 404, [viaURL, fullWeatherURL],
                  [.weatherAPIError (decodeErrorResponse weatherResp.Body).ErrorMessage], w2⟩
              else
                match decodeWeather weatherResp.Body with
                | none =>
                  ⟨httpError "internal server error: weather API failure" 500,
                    [viaURL, fullWeatherURL], [], w2⟩
                | some weather =>
                  let c := weather.CurrentTempC
                  let f := fahrenheit c
                  let k := kelvin c
                  ⟨{ status := 200, contentType := "application/json",
                     body := encodeMap [("temp_C", c), ("temp_F", f), ("temp_K", k)] },
                    [viaURL, fullWeatherURL], [], w2⟩

/-! ## Vocabulary of the properties -/

/-- An 8-character string of ASCII digits. -/
def IsPostalCode (d : String) : Prop :=
  d.data.length = 8 ∧ ∀ c ∈ d.data, c.isDigit = true

/-- The validation of main.go lets the path through: the path without its
leading slash has 8 bytes and `isNumeric` accepts it. -/
def Validates (path : String) : Prop :=
  len (TrimPrefix path "/") = 8 ∧ isNumeric (TrimPrefix path "/") = true

/-- A sign followed by 7 ASCII digits. -/
def IsSignedCode (s : String) : Prop :=
  ∃ (c : Char) (rest : List Char), s.data = c :: rest ∧ (c = '+' ∨ c = '-') ∧
    rest.length = 7 ∧ ∀ x ∈ rest, x.isDigit = true

instance (d : String) : Decidable (IsPostalCode d) := by
  unfold IsPostalCode
  exact inferInstance

instance (path : String) : Decidable (Validates path) := by
  unfold Validates
  exact inferInstance

/-- The URL the handler requests from the locality resolver. -/
def viaURLOf (viaCEPURL path : String) : String := Sprintf viaCEPURL [TrimPrefix path "/"]

/-- The URL the handler requests from the weather provider. -/
def weatherURLOf (weatherAPIURL : String) (env : String → Option String) (via : ViaCEPResponse) :
    String :=
  Sprintf weatherAPIURL [Getenv env "WEATHER_API_KEY", QueryEscape via.Localidade]

/-- Every collaborator outcome the success path needs. -/
def FullSuccess {σ : Type} (client : Client σ) (viaCEPURL weatherAPIURL : String)
    (env : String → Option String) (path : String) (w : σ) : Prop :=
  Validates path ∧
  ∃ (viaResp : HTTPResponse) (w1 : σ) (via : ViaCEPResponse) (weatherResp : HTTPResponse)
    (w2 : σ) (weather : WeatherAPIResponse),
    client.Get (viaURLOf viaCEPURL path) w = (.ok viaResp, w1) ∧
    decodeViaCEP viaResp.Body = some via ∧ via.Erro = "" ∧ via.Localidade ≠ "" ∧
    Getenv env "WEATHER_API_KEY" ≠ "" ∧
    client.Get (weatherURLOf weatherAPIURL env via) w1 = (.ok weatherResp, w2) ∧
    weatherResp.StatusCode = 200 ∧ decodeWeather weatherResp.Body = some weather

/-- The messages main.go passes to `http.Error`. -/
def errorMessages : List String :=
  ["invalid zipcode", "can not find zipcode", "can not decode viacep response",
   "internal server error: API key missing", "internal server error: weather API failure",
   "can not find weather for location"]

/-- Whether a JSON value stored into the `current` struct leaves `temp_c`
alone: it is `null`, or an object none of whose keys selects `temp_c`. -/
def lacksTempC : JSON → Bool
  | .null => true
  | .object ms => ms.all fun kv => (matchField ["temp_c"] kv.1).isNone
  | _ => false

/-- Whether the members of a top-level object leave `Current.TempC` alone:
every member whose key selects `current` is `null` or an object none of
whose keys selects `temp_c`. -/
def lacksCurrentTempC (ms : List (String × JSON)) : Bool :=
  ms.all fun kv => (matchField ["current"] kv.1).isNone || lacksTempC kv.2

/-- A finite float64 in range: `m < 2^53` and `e ≤ 971`. -/
def F64.Bounded : F64 → Prop
  | .finite _ m e => m < 2 ^ 53 ∧ e ≤ 971
  | .inf _ => False
  | .nan => False

/-- A client that answers from a script: the world is the list of answers
still to give, and a request takes the next one whatever its URL. -/
def scriptClient : Client (List (Except String HTTPResponse)) :=
  ⟨fun _ script =>
    match script with
    | [] => (.error "no answer left", [])
    | r :: rest => (r, rest)⟩

/-- An environment where `WEATHER_API_KEY` has the given value. -/
def envWithKey (key : String) : String → Option String :=
  fun name => if name = "WEATHER_API_KEY" then some key else none

/-- An environment where `WEATHER_API_KEY` is not set. -/
def envWithoutKey : String → Option String := fun _ => none

/-- The locality resolver template of `main`. -/
def mainViaCEPURL : String := "https://viacep.com.br/ws/%s/json/"

/-- The weather provider template of `main`. -/
def mainWeatherAPIURL : String := "http://api.weatherapi.com/v1/current.json?key=%s&q=%s&aqi=no"

/-! ## Lemmas -/

/-- Stripping the leading slash of `/d` gives `d`. -/
theorem trimPrefix_slash (d : String) : TrimPrefix ("/" ++ d) "/" = d := by
  simp [TrimPrefix, hasPrefixChars]

/-- An ASCII digit has a code between 48 and 57. -/
theorem isDigit_val {c : Char} (h : c.isDigit = true) : 48 ≤ c.toNat ∧ c.toNat ≤ 57 := by
  simp only [Char.isDigit, Bool.and_eq_true, decide_eq_true_eq] at h
  obtain ⟨h1, h2⟩ := h
  constructor
  · exact h1
  · exact h2

/-- An ASCII digit takes one byte. -/
theorem utf8Size_digit {c : Char} (h : c.isDigit = true) : c.utf8Size = 1 := by
  have hv := isDigit_val h
  have : c.val ≤ 127 := by
    show c.val.toNat ≤ 127
    have := hv.2
    simp only [Char.toNat] at this
    omega
  simp [Char.utf8Size, this]

/-- A run of ASCII digits has as many bytes as characters. -/
theorem utf8ByteSize_go_digits : ∀ cs : List Char, (∀ c ∈ cs, c.isDigit = true) →
    String.utf8ByteSize.go cs = cs.length
  | [], _ => rfl
  | c :: cs, h => by
    simp only [String.utf8ByteSize.go, List.length_cons]
    rw [utf8ByteSize_go_digits cs (fun x hx => h x (List.mem_cons_of_mem _ hx)),
      utf8Size_digit (h c (List.mem_cons_self _ _))]

/-- A postal code has `len` 8. -/
theorem len_of_postalCode {d : String} (h : IsPostalCode d) : len d = 8 := by
  obtain ⟨hl, hd⟩ := h
  show d.utf8ByteSize = 8
  rw [← hl]
  cases d with
  | mk cs => exact utf8ByteSize_go_digits cs hd

/-- On a run of digits small enough not to reach 2^63, the digit loop of
`ParseUint` succeeds, with a value below `(n + 1) * 10^length`. -/
theorem parseUintLoop_digits : ∀ (cs : List Char) (n : Nat), (∀ c ∈ cs, c.isDigit = true) →
    (n + 1) * 10 ^ cs.length ≤ 2 ^ 63 →
    ∃ v, parseUintLoop cs n = .ok v ∧ v + 1 ≤ (n + 1) * 10 ^ cs.length
  | [], n, _, _ => ⟨n, rfl, by simp⟩
  | c :: cs, n, hd, h => by
    have hc := isDigit_val (hd c (List.mem_cons_self _ _))
    have hpos : 1 ≤ 10 ^ cs.length := Nat.one_le_pow _ _ (by norm_num)
    have h' : (n + 1) * 10 * 10 ^ cs.length ≤ 2 ^ 63 := by
      simpa [pow_succ, Nat.mul_assoc, Nat.mul_comm, Nat.mul_left_comm] using h
    have hn : (n + 1) * 10 ≤ 2 ^ 63 := by
      calc (n + 1) * 10 = (n + 1) * 10 * 1 := by ring
        _ ≤ (n + 1) * 10 * 10 ^ cs.length := Nat.mul_le_mul_left _ hpos
        _ ≤ 2 ^ 63 := h'
    have hsmall : n * 10 + (c.toNat - 48) < 2 ^ 64 := by omega
    have hstep : (n * 10 + (c.toNat - 48) + 1) * 10 ^ cs.length ≤ 2 ^ 63 := by
      calc (n * 10 + (c.toNat - 48) + 1) * 10 ^ cs.length
          ≤ (n + 1) * 10 * 10 ^ cs.length := Nat.mul_le_mul_right _ (by omega)
        _ ≤ 2 ^ 63 := h'
    obtain ⟨v, hv, hle⟩ := parseUintLoop_digits cs (n * 10 + (c.toNat - 48))
      (fun x hx => hd x (List.mem_cons_of_mem _ hx)) hstep
    refine ⟨v, ?_, ?_⟩
    · have e0 : ('0' : Char).toNat = 48 := rfl
      have e9 : ('9' : Char).toNat = 57 := rfl
      unfold parseUintLoop
      simp only [e0, e9]
      rw [if_pos ⟨hc.1, hc.2⟩]
      rw [if_neg (by omega), if_neg (by omega), Nat.mod_eq_of_lt hsmall, if_neg (by omega)]
      exact hv
    · calc v + 1 ≤ (n * 10 + (c.toNat - 48) + 1) * 10 ^ cs.length := hle
        _ ≤ (n + 1) * 10 * 10 ^ cs.length := Nat.mul_le_mul_right _ (by omega)
        _ = (n + 1) * 10 ^ (c :: cs).length := by
          simp [pow_succ, Nat.mul_assoc, Nat.mul_comm, Nat.mul_left_comm]

/-- Every postal code is accepted by `strconv.ParseInt`. -/
theorem ParseInt_of_postalCode {d : String} (h : IsPostalCode d) : ∃ n, ParseInt d = .ok n := by
  obtain ⟨hl, hd⟩ := h
  obtain ⟨v, hv, hle⟩ := parseUintLoop_digits d.data 0 hd (by rw [hl]; norm_num)
  rw [hl] at hle
  have hv63 : ¬ (v ≥ 2 ^ 63) := by norm_num at hle ⊢; omega
  have hfin : parseIntFinish false (.ok v) = .ok (v : Int) := by
    have : v < 9223372036854775808 := by norm_num at hle hv63; omega
    simp [parseIntFinish, this]
  unfold ParseInt
  match hdata : d.data with
  | [] => rw [hdata] at hl; simp at hl
  | c :: rest =>
    have hc := isDigit_val (hd c (by rw [hdata]; exact List.mem_cons_self _ _))
    have hplus : c ≠ '+' := by
      intro e; rw [e] at hc; revert hc; decide
    have hminus : c ≠ '-' := by
      intro e; rw [e] at hc; revert hc; decide
    rw [hdata] at hv
    have hU : ParseUint (c :: rest) = .ok v := hv
    refine ⟨(v : Int), ?_⟩
    split
    · rename_i heq; simp at heq
    · rename_i heq; simp at heq; exact absurd heq.1 hplus
    · rename_i heq; simp at heq; exact absurd heq.1 hminus
    · rename_i heq
      simp at heq
      obtain ⟨rfl, rfl⟩ := heq
      rw [hU, hfin]

/-- Every postal code is accepted by `isNumeric`. -/
theorem isNumeric_of_postalCode {d : String} (h : IsPostalCode d) : isNumeric d = true := by
  obtain ⟨n, hn⟩ := ParseInt_of_postalCode h
  simp [isNumeric, hn]

/-- A character with a code between 48 and 57 is an ASCII digit. -/
theorem isDigit_of_val {c : Char} (h : 48 ≤ c.toNat ∧ c.toNat ≤ 57) : c.isDigit = true := by
  simp only [Char.isDigit, Bool.and_eq_true, decide_eq_true_eq]
  exact ⟨h.1, h.2⟩

/-- The digit loop of `ParseUint` succeeds on digits only. -/
theorem parseUintLoop_ok_digits : ∀ (cs : List Char) (n v : Nat),
    parseUintLoop cs n = .ok v → ∀ c ∈ cs, c.isDigit = true
  | [], _, _, _ => by simp
  | c :: cs, n, v, h => by
    have e0 : ('0' : Char).toNat = 48 := rfl
    have e9 : ('9' : Char).toNat = 57 := rfl
    unfold parseUintLoop at h
    simp only [e0, e9] at h
    split at h
    · rename_i hd
      split at h
      · cases h
      · split at h
        · cases h
        · split at h
          · cases h
          · intro x hx
            rcases List.mem_cons.mp hx with rfl | hx
            · exact isDigit_of_val hd
            · exact parseUintLoop_ok_digits cs _ v h x hx
    · split at h
      · split at h
        · cases h
        · rename_i hge
          exact absurd (by omega) hge
      · cases h

/-- On a text that does not start with a sign, `ParseInt` is `ParseUint` and the
range check. -/
theorem ParseInt_other (c : Char) (rest : List Char) (h1 : c ≠ '+') (h2 : c ≠ '-') :
    ParseInt ⟨c :: rest⟩ = parseIntFinish false (ParseUint (c :: rest)) := by
  unfold ParseInt
  split
  · rename_i heq; simp at heq
  · rename_i heq; simp at heq; exact absurd heq.1 h1
  · rename_i heq; simp at heq; exact absurd heq.1 h2
  · rename_i heq
    simp at heq
    obtain ⟨rfl, rfl⟩ := heq
    rfl

/-- The range check succeeds only on a magnitude `ParseUint` returned without
error. -/
theorem parseIntFinish_ok {neg : Bool} {r : Except NumError Nat} {i : Int}
    (h : parseIntFinish neg r = .ok i) : ∃ v, r = .ok v := by
  unfold parseIntFinish at h
  split at h
  · cases h
  · cases h
  · exact ⟨_, rfl⟩

/-- Only a non-empty run of digits is accepted by `ParseUint`. -/
theorem ParseUint_ok_digits {cs : List Char} {v : Nat} (h : ParseUint cs = .ok v) :
    cs ≠ [] ∧ ∀ c ∈ cs, c.isDigit = true := by
  unfold ParseUint at h
  split at h
  · cases h
  · exact ⟨by simp, parseUintLoop_ok_digits _ _ _ h⟩

/-- A non-empty run of at most 18 digits is accepted by `ParseUint`, with a value
below 2^63. -/
theorem ParseUint_digits {cs : List Char} (hne : cs ≠ []) (hlen : cs.length ≤ 18)
    (hd : ∀ c ∈ cs, c.isDigit = true) : ∃ v, ParseUint cs = .ok v ∧ v < 2 ^ 63 := by
  have hpow : 10 ^ cs.length ≤ 10 ^ 18 := Nat.pow_le_pow_right (by norm_num) hlen
  obtain ⟨v, hv, hle⟩ := parseUintLoop_digits cs 0 hd (by norm_num at hpow ⊢; omega)
  refine ⟨v, ?_, by norm_num at hpow hle ⊢; omega⟩
  unfold ParseUint
  split
  · exact absurd rfl hne
  · exact hv

/-- The range check lets a magnitude below 2^63 through, with either sign. -/
theorem parseIntFinish_small (neg : Bool) {v : Nat} (h : v < 2 ^ 63) :
    ∃ i, parseIntFinish neg (.ok v) = .ok i := by
  have h1 : ¬ (9223372036854775808 ≤ v) := by norm_num at h; omega
  have h2 : ¬ (9223372036854775808 < v) := by norm_num at h; omega
  cases neg <;> simp [parseIntFinish, h1, h2]

/-- What the validation of main.go accepts, exactly: 8 digits, or a sign
followed by 7 digits. -/
theorem validation_iff (s : String) :
    (len s = 8 ∧ isNumeric s = true) ↔ (IsPostalCode s ∨ IsSignedCode s) := by
  constructor
  · rintro ⟨hlen, hnum⟩
    cases s with
    | mk cs =>
      have hnum2 : ∃ i, ParseInt ⟨cs⟩ = .ok i := by
        unfold isNumeric at hnum
        split at hnum
        · exact ⟨_, ‹_›⟩
        · cases hnum
      obtain ⟨i, hi⟩ := hnum2
      cases cs with
      | nil => exact absurd hi (by simp [ParseInt])
      | cons c rest =>
        have hsize : String.utf8ByteSize.go rest + c.utf8Size = 8 := hlen
        by_cases hp : c = '+'
        · subst hp
          have hi2 : parseIntFinish false (ParseUint rest) = .ok i := hi
          obtain ⟨v, hv⟩ := parseIntFinish_ok hi2
          obtain ⟨_, hd⟩ := ParseUint_ok_digits hv
          rw [utf8ByteSize_go_digits rest hd] at hsize
          have h1 : ('+' : Char).utf8Size = 1 := by decide
          right
          exact ⟨'+', rest, rfl, Or.inl rfl, by omega, hd⟩
        · by_cases hm : c = '-'
          · subst hm
            have hi2 : parseIntFinish true (ParseUint rest) = .ok i := hi
            obtain ⟨v, hv⟩ := parseIntFinish_ok hi2
            obtain ⟨_, hd⟩ := ParseUint_ok_digits hv
            rw [utf8ByteSize_go_digits rest hd] at hsize
            have h1 : ('-' : Char).utf8Size = 1 := by decide
            right
            exact ⟨'-', rest, rfl, Or.inr rfl, by omega, hd⟩
          · rw [ParseInt_other c rest hp hm] at hi
            obtain ⟨v, hv⟩ := parseIntFinish_ok hi
            obtain ⟨_, hd⟩ := ParseUint_ok_digits hv
            have hsize2 : String.utf8ByteSize.go (c :: rest) = 8 := hlen
            rw [utf8ByteSize_go_digits (c :: rest) hd] at hsize2
            left
            exact ⟨hsize2, hd⟩
  · rintro (h | ⟨c, rest, hdata, hc, hlen, hd⟩)
    · exact ⟨len_of_postalCode h, isNumeric_of_postalCode h⟩
    · cases s with
      | mk cs =>
        simp only at hdata
        subst hdata
        obtain ⟨v, hv, hv63⟩ := @ParseUint_digits rest
          (by intro e; rw [e] at hlen; simp at hlen) (by omega) hd
        have hc1 : c.utf8Size = 1 := by
          rcases hc with rfl | rfl <;> decide
        refine ⟨?_, ?_⟩
        · show String.utf8ByteSize.go rest + c.utf8Size = 8
          rw [utf8ByteSize_go_digits rest hd, hc1, hlen]
        · rcases hc with rfl | rfl
          · obtain ⟨i, hi⟩ := parseIntFinish_small false hv63
            have : ParseInt ⟨'+' :: rest⟩ = .ok i := by
              show parseIntFinish false (ParseUint rest) = .ok i
              rw [hv, hi]
            simp [isNumeric, this]
          · obtain ⟨i, hi⟩ := parseIntFinish_small true hv63
            have : ParseInt ⟨'-' :: rest⟩ = .ok i := by
              show parseIntFinish true (ParseUint rest) = .ok i
              rw [hv, hi]
            simp [isNumeric, this]

/-- A path passes validation exactly when, without its leading slash, it is 8
digits or a sign followed by 7 digits. -/
theorem validates_iff (path : String) :
    Validates path ↔
      (IsPostalCode (TrimPrefix path "/") ∨ IsSignedCode (TrimPrefix path "/")) :=
  validation_iff _

section Steps

variable {σ : Type} (client : Client σ) (viaCEPURL weatherAPIURL : String)
  (env : String → Option String) (path : String) (w : σ)

/-- Step 1 of the handler: a path that fails validation is answered 422 and
nothing is requested. -/
theorem handler_invalid (h : ¬ Validates path) :
    weatherHandler client viaCEPURL weatherAPIURL env path w
      = ⟨httpError "invalid zipcode" 422, [], [], w⟩ := by
  unfold weatherHandler
  unfold Validates at h
  by_cases h1 : len (TrimPrefix path "/") = 8
  · have h2 : isNumeric (TrimPrefix path "/") = false := by
      cases hn : isNumeric (TrimPrefix path "/")
      · rfl
      · exact absurd ⟨h1, hn⟩ h
    simp [h1, h2]
  · simp [h1]

/-- Step 2: the resolver call fails at the transport level. -/
theorem handler_viaFetchError (h : Validates path) {err : String} {w1 : σ}
    (hGet : client.Get (viaURLOf viaCEPURL path) w = (.error err, w1)) :
    weatherHandler client viaCEPURL weatherAPIURL env path w
      = ⟨httpError "can not find zipcode" 404, [viaURLOf viaCEPURL path],
          [.viaCEPFetchError err], w1⟩ := by
  unfold weatherHandler
  unfold viaURLOf at hGet ⊢
  simp [h.1, h.2, hGet]

/-- Step 3: the resolver body does not decode. -/
theorem handler_viaDecodeError (h : Validates path) {viaResp : HTTPResponse} {w1 : σ}
    (hGet : client.Get (viaURLOf viaCEPURL path) w = (.ok viaResp, w1))
    (hDec : decodeViaCEP viaResp.Body = none) :
    weatherHandler client viaCEPURL weatherAPIURL env path w
      = ⟨httpError "can not decode viacep response" 500, [viaURLOf viaCEPURL path],
          [.viaCEPDecodeError], w1⟩ := by
  unfold weatherHandler
  unfold viaURLOf at hGet ⊢
  simp [h.1, h.2, hGet, hDec]

/-- Step 4: the resolver reports an error flag or no locality. -/
theorem handler_notFound (h : Validates path) {viaResp : HTTPResponse} {w1 : σ}
    {via : ViaCEPResponse}
    (hGet : client.Get (viaURLOf viaCEPURL path) w = (.ok viaResp, w1))
    (hDec : decodeViaCEP viaResp.Body = some via)
    (hNF : via.Erro ≠ "" ∨ via.Localidade = "") :
    weatherHandler client viaCEPURL weatherAPIURL env path w
      = ⟨httpError "can not find zipcode" 404, [viaURLOf viaCEPURL path], [], w1⟩ := by
  unfold weatherHandler
  unfold viaURLOf at hGet ⊢
  simp [h.1, h.2, hGet, hDec]
  intro h1 h2
  rcases hNF with h3 | h3
  · exact absurd h1 h3
  · exact absurd h3 h2

/-- Step 5: `WEATHER_API_KEY` is empty. -/
theorem handler_keyMissing (h : Validates path) {viaResp : HTTPResponse} {w1 : σ}
    {via : ViaCEPResponse}
    (hGet : client.Get (viaURLOf viaCEPURL path) w = (.ok viaResp, w1))
    (hDec : decodeViaCEP viaResp.Body = some via)
    (hE : via.Erro = "") (hL : via.Localidade ≠ "")
    (hKey : Getenv env "WEATHER_API_KEY" = "") :
    weatherHandler client viaCEPURL weatherAPIURL env path w
      = ⟨httpError "internal server error: API key missing" 500, [viaURLOf viaCEPURL path],
          [], w1⟩ := by
  unfold weatherHandler
  unfold viaURLOf at hGet ⊢
  simp [h.1, h.2, hGet, hDec, hE, hL, hKey]

/-- Step 6: the weather call fails at the transport level. -/
theorem handler_weatherFetchError (h : Validates path) {viaResp : HTTPResponse} {w1 : σ}
    {via : ViaCEPResponse}
    (hGet : client.Get (viaURLOf viaCEPURL path) w = (.ok viaResp, w1))
    (hDec : decodeViaCEP viaResp.Body = some via)
    (hE : via.Erro = "") (hL : via.Localidade ≠ "")
    (hKey : Getenv env "WEATHER_API_KEY" ≠ "") {err : String} {w2 : σ}
    (hGet2 : client.Get (weatherURLOf weatherAPIURL env via) w1 = (.error err, w2)) :
    weatherHandler client viaCEPURL weatherAPIURL env path w
      = ⟨httpError "internal server error: weather API failure" 500,
          [viaURLOf viaCEPURL path, weatherURLOf weatherAPIURL env via],
          [.weatherFetchError err], w2⟩ := by
  unfold weatherHandler
  unfold viaURLOf at hGet ⊢
  unfold weatherURLOf at hGet2 ⊢
  simp [h.1, h.2, hGet, hDec, hE, hL, hKey, hGet2]

/-- Step 7: the weather provider answers with a status other than 200. -/
theorem handler_weatherStatus (h : Validates path) {viaResp : HTTPResponse} {w1 : σ}
    {via : ViaCEPResponse}
    (hGet : client.Get (viaURLOf viaCEPURL path) w = (.ok viaResp, w1))
    (hDec : decodeViaCEP viaResp.Body = some via)
    (hE : via.Erro = "") (hL : via.Localidade ≠ "")
    (hKey : Getenv env "WEATHER_API_KEY" ≠ "") {weatherResp : HTTPResponse} {w2 : σ}
    (hGet2 : client.Get (weatherURLOf weatherAPIURL env via) w1 = (.ok weatherResp, w2))
    (hStatus : weatherResp.StatusCode ≠ 200) :
    weatherHandler client viaCEPURL weatherAPIURL env path w
      = ⟨httpError "can not find weather for location" 404,
          [viaURLOf viaCEPURL path, weatherURLOf weatherAPIURL env via],
          [.weatherAPIError (decodeErrorResponse weatherResp.Body).ErrorMessage], w2⟩ := by
  unfold weatherHandler
  unfold viaURLOf at hGet ⊢
  unfold weatherURLOf at hGet2 ⊢
  simp [h.1, h.2, hGet, hDec, hE, hL, hKey, hGet2, hStatus]

/-- Step 8: the weather body does not decode. -/
theorem handler_weatherDecodeError (h : Validates path) {viaResp : HTTPResponse} {w1 : σ}
    {via : ViaCEPResponse}
    (hGet : client.Get (viaURLOf viaCEPURL path) w = (.ok viaResp, w1))
    (hDec : decodeViaCEP viaResp.Body = some via)
    (hE : via.Erro = "") (hL : via.Localidade ≠ "")
    (hKey : Getenv env "WEATHER_API_KEY" ≠ "") {weatherResp : HTTPResponse} {w2 : σ}
    (hGet2 : client.Get (weatherURLOf weatherAPIURL env via) w1 = (.ok weatherResp, w2))
    (hStatus : weatherResp.StatusCode = 200)
    (hDec2 : decodeWeather weatherResp.Body = none) :
    weatherHandler client viaCEPURL weatherAPIURL env path w
      = ⟨httpError "internal server error: weather API failure" 500,
          [viaURLOf viaCEPURL path, weatherURLOf weatherAPIURL env via], [], w2⟩ := by
  unfold weatherHandler
  unfold viaURLOf at hGet ⊢
  unfold weatherURLOf at hGet2 ⊢
  simp [h.1, h.2, hGet, hDec, hE, hL, hKey, hGet2, hStatus, hDec2]

/-- Step 9: every step succeeded; the handler writes 200 and encodes the three
temperatures. -/
theorem handler_success (h : Validates path) {viaResp : HTTPResponse} {w1 : σ}
    {via : ViaCEPResponse}
    (hGet : client.Get (viaURLOf viaCEPURL path) w = (.ok viaResp, w1))
    (hDec : decodeViaCEP viaResp.Body = some via)
    (hE : via.Erro = "") (hL : via.Localidade ≠ "")
    (hKey : Getenv env "WEATHER_API_KEY" ≠ "") {weatherResp : HTTPResponse} {w2 : σ}
    (hGet2 : client.Get (weatherURLOf weatherAPIURL env via) w1 = (.ok weatherResp, w2))
    (hStatus : weatherResp.StatusCode = 200) {weather : WeatherAPIResponse}
    (hDec2 : decodeWeather weatherResp.Body = some weather) :
    weatherHandler client viaCEPURL weatherAPIURL env path w
      = ⟨{ status := 200, contentType := "application/json",
           body := encodeMap [("temp_C", weather.CurrentTempC),
             ("temp_F", fahrenheit weather.CurrentTempC), ("temp_K", kelvin weather.CurrentTempC)] },
          [viaURLOf viaCEPURL path, weatherURLOf weatherAPIURL env via], [], w2⟩ := by
  unfold weatherHandler
  unfold viaURLOf at hGet ⊢
  unfold weatherURLOf at hGet2 ⊢
  simp [h.1, h.2, hGet, hDec, hE, hL, hKey, hGet2, hStatus, hDec2]

end Steps

/-- The path `/d` of a postal code `d` passes validation. -/
theorem validates_postalCode {d : String} (h : IsPostalCode d) : Validates ("/" ++ d) := by
  unfold Validates
  rw [trimPrefix_slash]
  exact ⟨len_of_postalCode h, isNumeric_of_postalCode h⟩

section Classify

variable {σ : Type} (client : Client σ) (viaCEPURL weatherAPIURL : String)
  (env : String → Option String) (path : String) (w : σ)

/-- A request that passes validation ends either on the success path with status
200, or off it with status 404 or 500 and one of the fixed messages. -/
theorem handler_classify (h : Validates path) :
    (FullSuccess client viaCEPURL weatherAPIURL env path w ∧
      (weatherHandler client viaCEPURL weatherAPIURL env path w).response.status = 200) ∨
    (¬ FullSuccess client viaCEPURL weatherAPIURL env path w ∧
      ((weatherHandler client viaCEPURL weatherAPIURL env path w).response.status = 404 ∨
       (weatherHandler client viaCEPURL weatherAPIURL env path w).response.status = 500) ∧
      ∃ m ∈ errorMessages,
        (weatherHandler client viaCEPURL weatherAPIURL env path w).response.body
          = .text (m ++ "\n")) := by
  rcases hG : client.Get (viaURLOf viaCEPURL path) w with ⟨r, w1⟩
  cases r with
  | error err =>
    right
    rw [handler_viaFetchError client viaCEPURL weatherAPIURL env path w h hG]
    refine ⟨?_, Or.inl rfl, "can not find zipcode", by simp [errorMessages], rfl⟩
    rintro ⟨_, a, b, c, d, e, f, h1, _⟩
    rw [hG] at h1
    cases h1
  | ok viaResp =>
    cases hD : decodeViaCEP viaResp.Body with
    | none =>
      right
      rw [handler_viaDecodeError client viaCEPURL weatherAPIURL env path w h hG hD]
      refine ⟨?_, Or.inr rfl, "can not decode viacep response", by simp [errorMessages], rfl⟩
      rintro ⟨_, a, b, c, d, e, f, h1, h2, _⟩
      rw [hG] at h1
      cases h1
      rw [hD] at h2
      cases h2
    | some via =>
      by_cases hNF : via.Erro ≠ "" ∨ via.Localidade = ""
      · right
        rw [handler_notFound client viaCEPURL weatherAPIURL env path w h hG hD hNF]
        refine ⟨?_, Or.inl rfl, "can not find zipcode", by simp [errorMessages], rfl⟩
        rintro ⟨_, a, b, c, d, e, f, h1, h2, h3, h4, _⟩
        rw [hG] at h1
        cases h1
        rw [hD] at h2
        cases h2
        rcases hNF with h5 | h5
        · exact h5 h3
        · exact h4 h5
      · have hE : via.Erro = "" := by
          by_contra hne
          exact hNF (Or.inl hne)
        have hL : via.Localidade ≠ "" := fun e => hNF (Or.inr e)
        by_cases hK : Getenv env "WEATHER_API_KEY" = ""
        · right
          rw [handler_keyMissing client viaCEPURL weatherAPIURL env path w h hG hD hE hL hK]
          refine ⟨?_, Or.inr rfl, "internal server error: API key missing",
            by simp [errorMessages], rfl⟩
          rintro ⟨_, a, b, c, d, e, f, _, _, _, _, h5, _⟩
          exact h5 hK
        · rcases hG2 : client.Get (weatherURLOf weatherAPIURL env via) w1 with ⟨r2, w2⟩
          cases r2 with
          | error err =>
            right
            rw [handler_weatherFetchError client viaCEPURL weatherAPIURL env path w h hG hD hE hL
              hK hG2]
            refine ⟨?_, Or.inr rfl, "internal server error: weather API failure",
              by simp [errorMessages], rfl⟩
            rintro ⟨_, a, b, c, d, e, f, h1, h2, _, _, _, h6, _⟩
            rw [hG] at h1
            cases h1
            rw [hD] at h2
            cases h2
            rw [hG2] at h6
            cases h6
          | ok weatherResp =>
            by_cases hS : weatherResp.StatusCode = 200
            · cases hD2 : decodeWeather weatherResp.Body with
              | none =>
                right
                rw [handler_weatherDecodeError client viaCEPURL weatherAPIURL env path w h hG hD
                  hE hL hK hG2 hS hD2]
                refine ⟨?_, Or.inr rfl, "internal server error: weather API failure",
                  by simp [errorMessages], rfl⟩
                rintro ⟨_, a, b, c, d, e, f, h1, h2, _, _, _, h6, _, h8⟩
                rw [hG] at h1
                cases h1
                rw [hD] at h2
                cases h2
                rw [hG2] at h6
                cases h6
                rw [hD2] at h8
                cases h8
              | some weather =>
                left
                rw [handler_success client viaCEPURL weatherAPIURL env path w h hG hD hE hL hK
                  hG2 hS hD2]
                exact ⟨⟨h, viaResp, w1, via, weatherResp, w2, weather, hG, hD, hE, hL, hK, hG2,
                  hS, hD2⟩, rfl⟩
            · right
              rw [handler_weatherStatus client viaCEPURL weatherAPIURL env path w h hG hD hE hL
                hK hG2 hS]
              refine ⟨?_, Or.inl rfl, "can not find weather for location",
                by simp [errorMessages], rfl⟩
              rintro ⟨_, a, b, c, d, e, f, h1, h2, _, _, _, h6, h7, _⟩
              rw [hG] at h1
              cases h1
              rw [hD] at h2
              cases h2
              rw [hG2] at h6
              cases h6
              exact hS h7

/-- A request that passes validation starts by requesting the resolver URL. -/
theorem handler_calls_head (h : Validates path) :
    (weatherHandler client viaCEPURL weatherAPIURL env path w).calls.head?
      = some (viaURLOf viaCEPURL path) := by
  unfold weatherHandler viaURLOf
  simp only [h.1, h.2]
  simp only [bne_self_eq_false, Bool.not_true, Bool.or_self, Bool.false_eq_true, ↓reduceIte]
  split
  · rfl
  · split
    · rfl
    · split
      · rfl
      · split
        · rfl
        · split
          · rfl
          · split
            · rfl
            · split <;> rfl

/-- The handler answers 422 `invalid zipcode` exactly for the paths that are
neither 8 digits nor a sign followed by 7 digits. -/
theorem invalid_zipcode_iff :
    (weatherHandler client viaCEPURL weatherAPIURL env path w).response
        = httpError "invalid zipcode" 422 ↔
      ¬ (IsPostalCode (TrimPrefix path "/") ∨ IsSignedCode (TrimPrefix path "/")) := by
  rw [← validates_iff]
  constructor
  · intro h hv
    have h422 : (weatherHandler client viaCEPURL weatherAPIURL env path w).response.status
        = 422 := by
      rw [h]
      rfl
    rcases handler_classify client viaCEPURL weatherAPIURL env path w hv with
      ⟨_, h1⟩ | ⟨_, h1 | h1, _⟩ <;> rw [h1] at h422 <;> exact absurd h422 (by decide)
  · intro hv
    rw [handler_invalid client viaCEPURL weatherAPIURL env path w hv]

end Classify

/-- A one-character string in front of a string. -/
theorem string_singleton_append (c : Char) (t : String) :
    String.singleton c ++ t = ⟨c :: t.data⟩ := by
  apply String.ext
  simp [String.singleton]

/-- Text without `%` is copied by the formatting loop. -/
theorem doPrintf_literal : ∀ (pre rest : List Char) (args : List String), '%' ∉ pre →
    doPrintf (pre ++ rest) args = ⟨pre⟩ ++ doPrintf rest args
  | [], rest, args, _ => by
    apply String.ext
    simp
  | c :: pre, rest, args, h => by
    have hc : c ≠ '%' := fun e => h (by rw [e]; exact List.mem_cons_self _ _)
    have hpre : '%' ∉ pre := fun m => h (List.mem_cons_of_mem _ m)
    have ih := doPrintf_literal pre rest args hpre
    have step : doPrintf (c :: (pre ++ rest)) args
        = String.singleton c ++ doPrintf (pre ++ rest) args := by
      rw [doPrintf]
      · intro e; exact absurd e hc
      · intro cs e; exact absurd e hc
      · intro v cs e; exact absurd e hc
      · intro v cs a as e; exact absurd e hc
    rw [List.cons_append, step, ih, string_singleton_append]
    apply String.ext
    simp

/-- The resolver URL for the path `/d` is the template formatted with `d`. -/
theorem viaURLOf_slash (viaCEPURL d : String) :
    viaURLOf viaCEPURL ("/" ++ d) = Sprintf viaCEPURL [d] := by
  unfold viaURLOf
  rw [trimPrefix_slash]

/-- Go `os.Getenv` is empty for a variable that is not set or is set to the empty
string. -/
theorem getenv_empty {env : String → Option String}
    (h : env "WEATHER_API_KEY" = none ∨ env "WEATHER_API_KEY" = some "") :
    Getenv env "WEATHER_API_KEY" = "" := by
  unfold Getenv
  rcases h with h | h <;> rw [h] <;> rfl

/-- A template `pre%spost` with no other `%` formats to `pre`, the operand,
`post`. -/
theorem sprintf_one_verb (pre post d : String) (hpre : '%' ∉ pre.data) (hpost : '%' ∉ post.data) :
    Sprintf (pre ++ "%s" ++ post) [d] = pre ++ d ++ post := by
  have h1 : (pre ++ "%s" ++ post).data = pre.data ++ ('%' :: 's' :: post.data) := by
    simp [String.data_append]
  have h2 : doPrintf ('%' :: 's' :: post.data) [d] = d ++ doPrintf post.data [] := by
    rw [doPrintf]
    · simp
    · intro e; cases e
  have h3 : doPrintf post.data [] = post := by
    have := doPrintf_literal post.data [] [] hpost
    rw [List.append_nil] at this
    rw [this]
    apply String.ext
    simp [doPrintf, extraArgs]
  unfold Sprintf
  rw [h1, doPrintf_literal _ _ _ hpre, h2, h3]
  apply String.ext
  simp [String.data_append]

/-- A property every member store keeps is kept by storing all members. -/
theorem storeMembers_invariant {α : Type} (P : α → Prop)
    (set : α → String → JSON → α × Bool) (hset : ∀ r k v, P r → P (set r k v).1) :
    ∀ (ms : List (String × JSON)) (r : α), P r → P (storeMembers set ms r).1
  | [], _, h => h
  | (k, v) :: ms, r, h => by
    unfold storeMembers
    exact storeMembers_invariant P set hset ms _ (hset r k v h)

/-- A property every member store keeps is kept by storing a JSON value into the
struct. -/
theorem storeStruct_invariant {α : Type} (P : α → Prop)
    (set : α → String → JSON → α × Bool) (hset : ∀ r k v, P r → P (set r k v).1)
    (r : α) (v : JSON) (h : P r) : P (storeStruct set r v).1 := by
  unfold storeStruct
  split
  · exact storeMembers_invariant P set hset _ r h
  · exact h
  · exact h

/-- With enough fuel, `bitLenAux` is the number of binary digits. -/
theorem bitLenAux_spec : ∀ (f n : Nat), n ≤ f →
    n < 2 ^ bitLenAux f n ∧ (n ≠ 0 → 2 ^ (bitLenAux f n - 1) ≤ n)
  | 0, n, h => by
    have : n = 0 := by omega
    subst this
    simp [bitLenAux]
  | f + 1, n, h => by
    unfold bitLenAux
    by_cases h0 : n = 0
    · subst h0
      simp
    · rw [if_neg h0]
      have hle : n / 2 ≤ f := by omega
      obtain ⟨h1, h2⟩ := bitLenAux_spec f (n / 2) hle
      refine ⟨?_, fun _ => ?_⟩
      · rw [pow_succ]
        omega
      · simp only [Nat.add_sub_cancel]
        by_cases hh : n / 2 = 0
        · rw [hh]
          have : bitLenAux f 0 = 0 := by
            cases f <;> simp [bitLenAux]
          rw [this]
          simp
          omega
        · have h3 := h2 hh
          have hpos : 1 ≤ bitLenAux f (n / 2) := by
            by_contra hc
            have : bitLenAux f (n / 2) = 0 := by omega
            rw [this] at h1
            simp at h1
            exact hh h1
          have : 2 ^ bitLenAux f (n / 2) = 2 * 2 ^ (bitLenAux f (n / 2) - 1) := by
            conv_lhs => rw [show bitLenAux f (n / 2) = (bitLenAux f (n / 2) - 1) + 1 by omega]
            rw [pow_succ]
            ring
          omega

/-- A number is below 2 to its number of binary digits. -/
theorem bitLen_lt (n : Nat) : n < 2 ^ bitLen n := (bitLenAux_spec n n (le_refl n)).1

/-- A positive number has its top binary digit set. -/
theorem bitLen_le (n : Nat) (h : n ≠ 0) : 2 ^ (bitLen n - 1) ≤ n :=
  (bitLenAux_spec n n (le_refl n)).2 h

/-- A number below `2^k` has at most `k` binary digits. -/
theorem bitLen_le_of_lt {n k : Nat} (h : n < 2 ^ k) : bitLen n ≤ k := by
  by_cases h0 : n = 0
  · subst h0
    have : bitLen 0 = 0 := by simp [bitLen, bitLenAux]
    omega
  · by_contra hc
    have h1 := bitLen_le n h0
    have : 2 ^ k ≤ 2 ^ (bitLen n - 1) := Nat.pow_le_pow_right (by norm_num) (by omega)
    omega

/-- Rounding gives an infinity or a finite float64 in range. -/
theorem F64.round_inf_or_bounded (neg : Bool) (M : Nat) (E : Int) :
    F64.round neg M E = .inf neg ∨ (F64.round neg M E).Bounded := by
  unfold F64.round
  by_cases hM : M = 0
  · right
    simp [hM, F64.Bounded]
  · rw [if_neg hM]
    simp only []
    have hbl := bitLen_lt M
    generalize bitLen M = bl at hbl ⊢
    have he1a : E + (bl : Int) - 53 ≤ max (E + (bl : Int) - 53) (-1074) := le_max_left _ _
    have he1b : (-1074 : Int) ≤ max (E + (bl : Int) - 53) (-1074) := le_max_right _ _
    have he1c : max (E + (bl : Int) - 53) (-1074) = E + (bl : Int) - 53 ∨
        max (E + (bl : Int) - 53) (-1074) = -1074 := by
      rcases le_total (E + (bl : Int) - 53) (-1074) with h | h
      · right; exact max_eq_right h
      · left; exact max_eq_left h
    generalize max (E + (bl : Int) - 53) (-1074) = e1 at he1a he1b he1c ⊢
    by_cases hle : e1 ≤ E
    · rw [if_pos hle]
      by_cases h971 : 971 < e1
      · left
        rw [if_pos h971]
      · right
        rw [if_neg h971]
        refine ⟨?_, by omega⟩
        have hk : bl + (E - e1).toNat ≤ 53 := by omega
        calc M * 2 ^ (E - e1).toNat < 2 ^ bl * 2 ^ (E - e1).toNat :=
              Nat.mul_lt_mul_of_pos_right hbl (by positivity)
          _ = 2 ^ (bl + (E - e1).toNat) := by rw [pow_add]
          _ ≤ 2 ^ 53 := Nat.pow_le_pow_right (by norm_num) hk
    · rw [if_neg hle]
      have hsh : bl ≤ 53 + (e1 - E).toNat := by omega
      have hq : M / 2 ^ (e1 - E).toNat < 2 ^ 53 := by
        rw [Nat.div_lt_iff_lt_mul (by positivity)]
        calc M < 2 ^ bl := hbl
          _ ≤ 2 ^ (53 + (e1 - E).toNat) := Nat.pow_le_pow_right (by norm_num) hsh
          _ = 2 ^ 53 * 2 ^ (e1 - E).toNat := by rw [pow_add]
      generalize M / 2 ^ (e1 - E).toNat = q at hq ⊢
      generalize M % 2 ^ (e1 - E).toNat = r
      generalize 2 ^ ((e1 - E).toNat - 1) = half
      by_cases hup : half < r ∨ r = half ∧ q % 2 = 1
      · simp only [if_pos hup]
        by_cases hq1 : q + 1 = 2 ^ 53
        · simp only [if_pos hq1]
          by_cases h971 : 971 < e1 + 1
          · left; rw [if_pos h971]
          · right; rw [if_neg h971]
            exact ⟨by norm_num, by omega⟩
        · simp only [if_neg hq1]
          by_cases h971 : 971 < e1
          · left; rw [if_pos h971]
          · right; rw [if_neg h971]
            exact ⟨by omega, by omega⟩
      · simp only [if_neg hup]
        have hq1 : q ≠ 2 ^ 53 := by omega
        simp only [if_neg hq1]
        by_cases h971 : 971 < e1
        · left; rw [if_pos h971]
        · right; rw [if_neg h971]
          exact ⟨hq, by omega⟩

/-- Rounding a magnitude below `2^1024 - 2^970` (the midpoint above the largest
float64) gives a finite float64. -/
theorem F64.round_finite_of_lt (neg : Bool) (M n : Nat)
    (h : M < (2 ^ 1024 - 2 ^ 970) * 2 ^ n) :
    (F64.round neg M (-(n : Int))).isInfOrNaN = false := by
  unfold F64.round
  by_cases hM : M = 0
  · simp [hM, F64.isInfOrNaN]
  · rw [if_neg hM]
    simp only []
    have hlt : M < 2 ^ (1024 + n) := by
      calc M < (2 ^ 1024 - 2 ^ 970) * 2 ^ n := h
        _ ≤ 2 ^ 1024 * 2 ^ n := Nat.mul_le_mul_right _ (Nat.sub_le _ _)
        _ = 2 ^ (1024 + n) := by rw [pow_add]
    have hbl := bitLen_le_of_lt hlt
    generalize bitLen M = bl at hbl ⊢
    have he1c : max (-(n : Int) + (bl : Int) - 53) (-1074) = -(n : Int) + (bl : Int) - 53 ∨
        max (-(n : Int) + (bl : Int) - 53) (-1074) = -1074 := by
      rcases le_total (-(n : Int) + (bl : Int) - 53) (-1074) with h | h
      · right; exact max_eq_right h
      · left; exact max_eq_left h
    generalize max (-(n : Int) + (bl : Int) - 53) (-1074) = e1 at he1c ⊢
    have he971 : e1 ≤ 971 := by omega
    by_cases hle : e1 ≤ -(n : Int)
    · rw [if_pos hle, if_neg (by omega)]
      rfl
    · rw [if_neg hle]
      by_cases hq1 : (if 2 ^ ((e1 - -(n : Int)).toNat - 1) < M % 2 ^ (e1 - -(n : Int)).toNat ∨
            M % 2 ^ (e1 - -(n : Int)).toNat = 2 ^ ((e1 - -(n : Int)).toNat - 1) ∧
              M / 2 ^ (e1 - -(n : Int)).toNat % 2 = 1
          then M / 2 ^ (e1 - -(n : Int)).toNat + 1 else M / 2 ^ (e1 - -(n : Int)).toNat) = 2 ^ 53
      · rw [if_pos hq1]
        have hne : e1 ≠ 971 := by
          intro he
          have hsh : (e1 - -(n : Int)).toNat = 971 + n := by omega
          rw [hsh] at hq1
          have hsh1 : 971 + n - 1 = 970 + n := by omega
          rw [hsh1] at hq1
          have hdm := Nat.div_add_mod M (2 ^ (971 + n))
          have hqlt : M / 2 ^ (971 + n) < 2 ^ 53 := by
            rw [Nat.div_lt_iff_lt_mul (by positivity)]
            calc M < 2 ^ (1024 + n) := hlt
              _ = 2 ^ 53 * 2 ^ (971 + n) := by rw [← pow_add]; congr 1; omega
          have e971 : 2 ^ (971 + n) = 2 ^ 971 * 2 ^ n := pow_add _ _ _
          have e970 : 2 ^ (970 + n) = 2 ^ 970 * 2 ^ n := pow_add _ _ _
          rw [e971, e970] at hq1
          rw [e971] at hdm hqlt
          generalize M / (2 ^ 971 * 2 ^ n) = q at hq1 hdm hqlt
          generalize M % (2 ^ 971 * 2 ^ n) = r at hq1 hdm
          generalize 2 ^ n = N at h hq1 hdm
          split at hq1
          · rename_i hup
            have hq : q = 2 ^ 53 - 1 := by omega
            subst hq
            have hr : 2 ^ 970 * N ≤ r := by
              rcases hup with h1 | h1
              · omega
              · omega
            have : (2 ^ 1024 - 2 ^ 970) * N ≤ M := by
              rw [← hdm]
              norm_num at hr ⊢
              omega
            omega
          · omega
        rw [if_neg (by omega)]
        rfl
      · rw [if_neg hq1, if_neg (by omega)]
        rfl

/-- A float64 in range is finite. -/
theorem F64.isInfOrNaN_of_bounded {x : F64} (h : x.Bounded) : x.isInfOrNaN = false := by
  cases x with
  | finite s m e => rfl
  | inf s => exact absurd h (by simp [F64.Bounded])
  | nan => exact absurd h (by simp [F64.Bounded])

/-- Adding 273 to a float64 in range never overflows. -/
theorem F64.add_273_finite {c : F64} (h : c.Bounded) :
    (F64.add c (F64.ofNat 273)).isInfOrNaN = false := by
  have h273 : F64.ofNat 273 = .finite false 4802666790125568 (-44) := by decide!
  rw [h273]
  cases c with
  | inf s => exact absurd h (by simp [F64.Bounded])
  | nan => exact absurd h (by simp [F64.Bounded])
  | finite s m e =>
    obtain ⟨hm, he⟩ := h
    unfold F64.add
    simp only []
    obtain ⟨n, hn⟩ : ∃ n : Nat, min e (-44) = -(n : Int) := by
      refine ⟨(-(min e (-44))).toNat, ?_⟩
      have : min e (-44) ≤ -44 := min_le_right _ _
      omega
    have hn44 : 44 ≤ n := by
      have : min e (-44) ≤ -44 := min_le_right _ _
      omega
    have hne : min e (-44) ≤ e := min_le_left _ _
    rw [hn] at hne ⊢
    have hk : (-44 - -(n : Int)).toNat = n - 44 := by omega
    have hx : (e - -(n : Int)).toNat ≤ 971 + n := by omega
    rw [hk]
    have h1 : m * 2 ^ (e - -(n : Int)).toNat ≤ (2 ^ 53 - 1) * 2 ^ (971 + n) :=
      Nat.mul_le_mul (by omega) (Nat.pow_le_pow_right (by norm_num) hx)
    have h2 : 4802666790125568 * 2 ^ (n - 44) = 273 * 2 ^ n := by
      have : 2 ^ n = 2 ^ 44 * 2 ^ (n - 44) := by
        rw [← pow_add]
        congr 1
        omega
      rw [this]
      ring
    have e971 : 2 ^ (971 + n) = 2 ^ 971 * 2 ^ n := pow_add _ _ _
    rw [e971] at h1
    generalize m * 2 ^ (e - -(n : Int)).toNat = X at h1 ⊢
    rw [h2]
    have habs : Int.natAbs ((if s = true then -((X : Nat) : Int) else ((X : Nat) : Int)) +
        (if false = true then -((273 * 2 ^ n : Nat) : Int) else ((273 * 2 ^ n : Nat) : Int)))
        < (2 ^ 1024 - 2 ^ 970) * 2 ^ n := by
      have hpos : 1 ≤ 2 ^ n := Nat.one_le_pow _ _ (by norm_num)
      generalize 2 ^ n = N at h1 hpos ⊢
      have : Int.natAbs ((if s = true then -((X : Nat) : Int) else ((X : Nat) : Int)) +
          (if false = true then -((273 * N : Nat) : Int) else ((273 * N : Nat) : Int)))
          ≤ X + 273 * N := by
        cases s <;> simp <;> omega
      refine lt_of_le_of_lt this ?_
      norm_num at h1 ⊢
      omega
    generalize (if s = true then -((X : Nat) : Int) else ((X : Nat) : Int)) +
        (if false = true then -((273 * 2 ^ n : Nat) : Int) else ((273 * 2 ^ n : Nat) : Int)) = c
      at habs ⊢
    by_cases hc : c = 0
    · rw [if_pos hc]
      rfl
    · rw [if_neg hc]
      exact F64.round_finite_of_lt _ _ _ habs

/-- The float64 nearest to a decimal is an infinity or in range. -/
theorem F64.ofDecimal_inf_or_bounded (neg : Bool) (d : Nat) (x : Int) :
    F64.ofDecimal neg d x = .inf neg ∨ (F64.ofDecimal neg d x).Bounded := by
  unfold F64.ofDecimal
  split
  · exact F64.round_inf_or_bounded _ _ _
  · exact F64.round_inf_or_bounded _ _ _

/-- Only floats in range are returned by `ParseFloat`. -/
theorem parseFloat_bounded {lit : String} {x : F64} (h : ParseFloat lit = some x) :
    x.Bounded := by
  unfold ParseFloat at h
  split at h
  · cases h
  · rename_i neg d e _
    split at h
    · cases h
    · rename_i hfin
      cases h
      rcases F64.ofDecimal_inf_or_bounded neg d e with hinf | hb
      · rw [hinf] at hfin
        exact absurd rfl hfin
      · exact hb

/-- Storing into a `float64` field keeps it in range. -/
theorem storeFloat_bounded (cur : F64) (v : JSON) (h : cur.Bounded) :
    (storeFloat cur v).1.Bounded := by
  unfold storeFloat
  split
  · split
    · rename_i hx
      exact parseFloat_bounded hx
    · exact h
  · exact h
  · exact h

/-- The reading `decodeWeather` returns is a finite float64 in range. -/
theorem decodeWeather_bounded {body : String} {weather : WeatherAPIResponse}
    (h : decodeWeather body = some weather) : weather.CurrentTempC.Bounded := by
  have hcur : ∀ r k v, r.CurrentTempC.Bounded →
      (WeatherAPIResponse.setCurrentField r k v).1.CurrentTempC.Bounded := by
    intro r k v hr
    unfold WeatherAPIResponse.setCurrentField
    split
    · exact storeFloat_bounded _ _ hr
    · exact hr
  have htop : ∀ r k v, r.CurrentTempC.Bounded →
      (WeatherAPIResponse.setField r k v).1.CurrentTempC.Bounded := by
    intro r k v hr
    unfold WeatherAPIResponse.setField
    split
    · exact storeStruct_invariant (fun (r : WeatherAPIResponse) => r.CurrentTempC.Bounded)
        _ hcur r v hr
    · exact hr
  have hzero : WeatherAPIResponse.zero.CurrentTempC.Bounded := by
    show (F64.finite false 0 (-1074)).Bounded
    exact ⟨by norm_num, by norm_num⟩
  unfold decodeWeather at h
  split at h
  · cases h
  · split at h
    · cases h
    · cases h
      exact storeStruct_invariant (fun (r : WeatherAPIResponse) => r.CurrentTempC.Bounded)
        _ htop _ _ hzero

/-! ### Bodies without `temp_c` -/

/-- Members that each leave the struct as it is, without a type error, leave
it as it is together. -/
theorem storeMembers_fixed {α : Type} (set : α → String → JSON → α × Bool) (r : α) :
    ∀ ms : List (String × JSON), (∀ kv ∈ ms, set r kv.1 kv.2 = (r, false)) →
      storeMembers set ms r = (r, false)
  | [], _ => rfl
  | (k, v) :: ms, h => by
    have h1 : set r k v = (r, false) := h (k, v) (List.mem_cons_self _ _)
    have ih := storeMembers_fixed set r ms (fun kv hkv => h kv (List.mem_cons_of_mem _ hkv))
    unfold storeMembers
    rw [h1]
    simp only [ih, Bool.or_self]

/-- A key that does not select `temp_c` is skipped. -/
theorem setCurrentField_skip (r : WeatherAPIResponse) (key : String) (v : JSON)
    (h : (matchField ["temp_c"] key).isNone = true) :
    WeatherAPIResponse.setCurrentField r key v = (r, false) := by
  have hn : matchField ["temp_c"] key = none := Option.isNone_iff_eq_none.mp h
  unfold WeatherAPIResponse.setCurrentField
  rw [hn]

/-- Storing `null`, or an object without `temp_c`, into `current` changes nothing. -/
theorem storeStruct_lacksTempC (r : WeatherAPIResponse) (v : JSON) (h : lacksTempC v = true) :
    storeStruct WeatherAPIResponse.setCurrentField r v = (r, false) := by
  cases v with
  | null => rfl
  | object ms =>
    unfold storeStruct
    simp only []
    apply storeMembers_fixed
    intro kv hkv
    apply setCurrentField_skip
    simp only [lacksTempC, List.all_eq_true] at h
    exact h kv hkv
  | bool b => simp [lacksTempC] at h
  | number l => simp [lacksTempC] at h
  | string s => simp [lacksTempC] at h
  | array es => simp [lacksTempC] at h

/-- A member that does not select `current`, or whose value is `null` or an
object without `temp_c`, changes nothing. -/
theorem setField_lacks (r : WeatherAPIResponse) (key : String) (v : JSON)
    (h : ((matchField ["current"] key).isNone || lacksTempC v) = true) :
    WeatherAPIResponse.setField r key v = (r, false) := by
  unfold WeatherAPIResponse.setField
  split
  · rename_i hm
    rw [hm] at h
    exact storeStruct_lacksTempC r v (by simpa using h)
  · rfl

/-- A body read as an object that leaves `Current.TempC` alone decodes,
without error, to the zero reading. -/
theorem decodeWeather_lacks {body : String} {ms : List (String × JSON)}
    (hRead : readValue body = some (.object ms)) (hLack : lacksCurrentTempC ms = true) :
    decodeWeather body = some WeatherAPIResponse.zero := by
  have hst : storeStruct WeatherAPIResponse.setField WeatherAPIResponse.zero (.object ms)
      = (WeatherAPIResponse.zero, false) := by
    unfold storeStruct
    simp only []
    apply storeMembers_fixed
    intro kv hkv
    apply setField_lacks
    simp only [lacksCurrentTempC, List.all_eq_true] at hLack
    exact hLack kv hkv
  unfold decodeWeather
  rw [hRead]
  simp only [hst]
  rfl

/-! ### The JSON reader never runs out of fuel -/

/-- Skipping white space does not lengthen the input. -/
theorem skipWS_length_le : ∀ cs : List Char, (skipWS cs).length ≤ cs.length
  | [] => by simp [skipWS]
  | c :: cs => by
    unfold skipWS
    split
    · have := skipWS_length_le cs
      simp only [List.length_cons]
      omega
    · exact le_refl _

/-- A scan that succeeds with a unit in front succeeded without it. -/
theorem consUnit_some {u : Nat} {r : Option (List Nat × List Char)} {us : List Nat}
    {rest : List Char} (h : consUnit u r = some (us, rest)) :
    ∃ us0, r = some (us0, rest) := by
  cases r with
  | none => simp [consUnit] at h
  | some p =>
    obtain ⟨a, b⟩ := p
    simp only [consUnit, Option.some.injEq, Prod.mk.injEq] at h
    exact ⟨a, by rw [h.2]⟩

/-- Scanning a string consumes input. -/
theorem scanString_length_lt : ∀ (n : Nat) (cs : List Char) (us : List Nat) (rest : List Char),
    cs.length ≤ n → scanString cs = some (us, rest) → rest.length < cs.length
  | 0, cs, us, rest, hn, h => by
    have : cs = [] := List.length_eq_zero.mp (by omega)
    subst this
    simp [scanString] at h
  | n + 1, cs, us, rest, hn, h => by
    unfold scanString at h
    split at h
    · cases h
    · simp only [Option.some.injEq, Prod.mk.injEq] at h
      rw [← h.2]
      simp
    · split at h
      · cases h
      · obtain ⟨us0, h0⟩ := consUnit_some h
        have := scanString_length_lt n _ us0 rest (by simp only [List.length_cons] at hn; omega) h0
        simp only [List.length_cons]
        omega
    · split at h
      · obtain ⟨us0, h0⟩ := consUnit_some h
        have := scanString_length_lt n _ us0 rest (by simp only [List.length_cons] at hn; omega) h0
        simp only [List.length_cons]
        omega
      · cases h
    · split at h
      · cases h
      · obtain ⟨us0, h0⟩ := consUnit_some h
        have := scanString_length_lt n _ us0 rest (by simp only [List.length_cons] at hn; omega) h0
        simp only [List.length_cons]
        omega

/-- Reading a string consumes input. -/
theorem parseString_length_lt {cs s rest : List Char} (h : parseString cs = some (s, rest)) :
    rest.length < cs.length := by
  unfold parseString at h
  split at h
  · cases h
  · rename_i us r hs
    simp only [Option.some.injEq, Prod.mk.injEq] at h
    rw [← h.2]
    exact scanString_length_lt cs.length cs us r (le_refl _) hs

/-- Dropping a run of characters does not lengthen the input. -/
theorem length_dropWhile_le (p : Char → Bool) : ∀ cs : List Char,
    (cs.dropWhile p).length ≤ cs.length
  | [] => by simp
  | c :: cs => by
    rw [List.dropWhile_cons]
    split
    · have := length_dropWhile_le p cs
      simp only [List.length_cons]
      omega
    · exact le_refl _

/-- Scanning the integer part does not lengthen the input. -/
theorem scanInteger_length_le {cs ip rest : List Char} (h : scanInteger cs = some (ip, rest)) :
    rest.length ≤ cs.length := by
  unfold scanInteger at h
  split at h
  · cases h
  · split at h
    · simp only [Option.some.injEq, Prod.mk.injEq] at h
      rw [← h.2]
      simp
    · split at h
      · simp only [Option.some.injEq, Prod.mk.injEq] at h
        rw [← h.2]
        exact length_dropWhile_le _ _
      · cases h

/-- Scanning the fraction does not lengthen the input. -/
theorem scanFraction_length_le {cs fp rest : List Char} (h : scanFraction cs = some (fp, rest)) :
    rest.length ≤ cs.length := by
  unfold scanFraction at h
  split at h
  · split at h
    · cases h
    · simp only [Option.some.injEq, Prod.mk.injEq] at h
      rw [← h.2]
      have := length_dropWhile_le Char.isDigit ‹List Char›
      simp only [List.length_cons]
      omega
  · simp only [Option.some.injEq, Prod.mk.injEq] at h
    rw [← h.2]

/-- Scanning the exponent does not lengthen the input. -/
theorem scanExponent_length_le {cs ep rest : List Char} (h : scanExponent cs = some (ep, rest)) :
    rest.length ≤ cs.length := by
  unfold scanExponent at h
  split at h
  · simp only [Option.some.injEq, Prod.mk.injEq] at h
    rw [← h.2]
  · split at h
    · simp only [] at h
      split at h
      · cases h
      · simp only [Option.some.injEq, Prod.mk.injEq] at h
        rw [← h.2]
        refine le_trans (length_dropWhile_le _ _) ?_
        simp only [List.length_drop, List.length_cons]
        omega
    · simp only [Option.some.injEq, Prod.mk.injEq] at h
      rw [← h.2]

/-- Scanning a number does not lengthen the input. -/
theorem parseNumber_length_le {cs lit rest : List Char} (h : parseNumber cs = some (lit, rest)) :
    rest.length ≤ cs.length := by
  unfold parseNumber at h
  simp only [] at h
  split at h
  · cases h
  · rename_i ip r1 h1
    split at h
    · cases h
    · rename_i fp r2 h2
      split at h
      · cases h
      · rename_i ep r3 h3
        simp only [Option.some.injEq, Prod.mk.injEq] at h
        rw [← h.2]
        have a1 := scanInteger_length_le h1
        have a2 := scanFraction_length_le h2
        have a3 := scanExponent_length_le h3
        simp only [List.length_drop] at a1
        omega

set_option maxHeartbeats 4000000 in
/-- What the JSON reader leaves is no longer than what it was given. -/
theorem parse_length_le : ∀ f : Nat,
    (∀ d cs v rest, parseValue f d cs = some (v, rest) → rest.length ≤ cs.length) ∧
    (∀ d cs ms rest, parseMembers f d cs = some (ms, rest) → rest.length ≤ cs.length) ∧
    (∀ d cs es rest, parseElements f d cs = some (es, rest) → rest.length ≤ cs.length)
  | 0 => by
    refine ⟨?_, ?_, ?_⟩ <;> intro d cs v rest h
    · simp [parseValue] at h
    · simp [parseMembers] at h
    · simp [parseElements] at h
  | f + 1 => by
    obtain ⟨ihV, ihM, ihE⟩ := parse_length_le f
    refine ⟨?_, ?_, ?_⟩
    · intro d cs v rest h
      have hws := skipWS_length_le cs
      unfold parseValue at h
      split at h
      · rename_i r heq
        rw [heq] at hws
        simp only [List.length_cons] at hws
        split at h
        · cases h
        · split at h
          · rename_i r2 heq2
            have hws2 := skipWS_length_le r
            rw [heq2] at hws2
            simp only [List.length_cons] at hws2
            simp only [Option.some.injEq, Prod.mk.injEq] at h
            rw [← h.2]
            omega
          · split at h
            · rename_i ms r2 hm
              simp only [Option.some.injEq, Prod.mk.injEq] at h
              rw [← h.2]
              have := ihM _ _ _ _ hm
              omega
            · cases h
      · rename_i r heq
        rw [heq] at hws
        simp only [List.length_cons] at hws
        split at h
        · cases h
        · split at h
          · rename_i r2 heq2
            have hws2 := skipWS_length_le r
            rw [heq2] at hws2
            simp only [List.length_cons] at hws2
            simp only [Option.some.injEq, Prod.mk.injEq] at h
            rw [← h.2]
            omega
          · split at h
            · rename_i es r2 hm
              simp only [Option.some.injEq, Prod.mk.injEq] at h
              rw [← h.2]
              have := ihE _ _ _ _ hm
              omega
            · cases h
      · rename_i r heq
        rw [heq] at hws
        simp only [List.length_cons] at hws
        split at h
        · rename_i s r2 hs
          simp only [Option.some.injEq, Prod.mk.injEq] at h
          rw [← h.2]
          have := parseString_length_lt hs
          omega
        · cases h
      · rename_i r heq
        rw [heq] at hws
        simp only [List.length_cons] at hws
        simp only [Option.some.injEq, Prod.mk.injEq] at h
        rw [← h.2]
        omega
      · rename_i r heq
        rw [heq] at hws
        simp only [List.length_cons] at hws
        simp only [Option.some.injEq, Prod.mk.injEq] at h
        rw [← h.2]
        omega
      · rename_i r heq
        rw [heq] at hws
        simp only [List.length_cons] at hws
        simp only [Option.some.injEq, Prod.mk.injEq] at h
        rw [← h.2]
        omega
      · split at h
        · rename_i lit r hnum
          simp only [Option.some.injEq, Prod.mk.injEq] at h
          rw [← h.2]
          have := parseNumber_length_le hnum
          omega
        · cases h
    · intro d cs ms rest h
      have hws := skipWS_length_le cs
      unfold parseMembers at h
      split at h
      · rename_i r heq
        rw [heq] at hws
        simp only [List.length_cons] at hws
        split at h
        · cases h
        · rename_i k r1 hk
          have hk1 := parseString_length_lt hk
          have hws1 := skipWS_length_le r1
          split at h
          · rename_i r2 heq2
            rw [heq2] at hws1
            simp only [List.length_cons] at hws1
            split at h
            · cases h
            · rename_i v r3 hv
              have hv1 := ihV _ _ _ _ hv
              have hws3 := skipWS_length_le r3
              split at h
              · rename_i r4 heq4
                rw [heq4] at hws3
                simp only [List.length_cons] at hws3
                split at h
                · rename_i ms0 r5 hm
                  simp only [Option.some.injEq, Prod.mk.injEq] at h
                  rw [← h.2]
                  have := ihM _ _ _ _ hm
                  omega
                · cases h
              · rename_i r4 heq4
                rw [heq4] at hws3
                simp only [List.length_cons] at hws3
                simp only [Option.some.injEq, Prod.mk.injEq] at h
                rw [← h.2]
                omega
              · cases h
          · cases h
      · cases h
    · intro d cs es rest h
      unfold parseElements at h
      split at h
      · cases h
      · rename_i v r1 hv
        have hv1 := ihV _ _ _ _ hv
        have hws1 := skipWS_length_le r1
        split at h
        · rename_i r2 heq2
          rw [heq2] at hws1
          simp only [List.length_cons] at hws1
          split at h
          · rename_i es0 r3 he
            simp only [Option.some.injEq, Prod.mk.injEq] at h
            rw [← h.2]
            have := ihE _ _ _ _ he
            omega
          · cases h
        · rename_i r2 heq2
          rw [heq2] at hws1
          simp only [List.length_cons] at hws1
          simp only [Option.some.injEq, Prod.mk.injEq] at h
          rw [← h.2]
          omega
        · cases h

set_option maxHeartbeats 4000000 in
/-- Two amounts of fuel above twice the length of the input (plus one, plus two
for the elements of an array) give the same reading. -/
theorem parse_fuel : ∀ f : Nat,
    (∀ d cs g, 2 * cs.length + 1 ≤ f → 2 * cs.length + 1 ≤ g →
      parseValue f d cs = parseValue g d cs) ∧
    (∀ d cs g, 2 * cs.length + 1 ≤ f → 2 * cs.length + 1 ≤ g →
      parseMembers f d cs = parseMembers g d cs) ∧
    (∀ d cs g, 2 * cs.length + 2 ≤ f → 2 * cs.length + 2 ≤ g →
      parseElements f d cs = parseElements g d cs)
  | 0 => by
    refine ⟨?_, ?_, ?_⟩ <;> intro d cs g hf hg <;> omega
  | f + 1 => by
    obtain ⟨ihV, ihM, ihE⟩ := parse_fuel f
    refine ⟨?_, ?_, ?_⟩
    · intro d cs g hf hg
      obtain ⟨g, rfl⟩ : ∃ g0, g = g0 + 1 := ⟨g - 1, by omega⟩
      have hws := skipWS_length_le cs
      rw [parseValue, parseValue]
      split
      · rename_i r heq
        rw [heq] at hws
        simp only [List.length_cons] at hws
        rw [ihM (d + 1) r g (by omega) (by omega)]
      · rename_i r heq
        rw [heq] at hws
        simp only [List.length_cons] at hws
        rw [ihE (d + 1) r g (by omega) (by omega)]
      · rfl
      · rfl
      · rfl
      · rfl
      · rfl
    · intro d cs g hf hg
      obtain ⟨g, rfl⟩ : ∃ g0, g = g0 + 1 := ⟨g - 1, by omega⟩
      have hws := skipWS_length_le cs
      rw [parseMembers, parseMembers]
      split
      · rename_i r heq
        rw [heq] at hws
        simp only [List.length_cons] at hws
        split
        · rfl
        · rename_i k r1 hk
          have hk1 := parseString_length_lt hk
          have hws1 := skipWS_length_le r1
          split
          · rename_i r2 heq2
            rw [heq2] at hws1
            simp only [List.length_cons] at hws1
            rw [ihV d r2 g (by omega) (by omega)]
            split
            · rfl
            · rename_i v r3 hv
              have hv1 := (parse_length_le g).1 _ _ _ _ hv
              have hws3 := skipWS_length_le r3
              split
              · rename_i r4 heq4
                rw [heq4] at hws3
                simp only [List.length_cons] at hws3
                rw [ihM d r4 g (by omega) (by omega)]
              · rfl
              · rfl
          · rfl
      · rfl
    · intro d cs g hf hg
      obtain ⟨g, rfl⟩ : ∃ g0, g = g0 + 1 := ⟨g - 1, by omega⟩
      rw [parseElements, parseElements]
      rw [ihV d cs g (by omega) (by omega)]
      split
      · rfl
      · rename_i v r1 hv
        have hv1 := (parse_length_le g).1 _ _ _ _ hv
        have hws1 := skipWS_length_le r1
        split
        · rename_i r2 heq2
          rw [heq2] at hws1
          simp only [List.length_cons] at hws1
          rw [ihE d r2 g (by omega) (by omega)]
        · rfl
        · rfl

/-- Fuel above twice the length of the input never changes what is read. -/
theorem parseValue_fuel_adequate (d : Nat) (cs : List Char) (g : Nat)
    (h : 2 * cs.length + 1 ≤ g) :
    parseValue g d cs = parseValue (2 * cs.length + 1) d cs :=
  ((parse_fuel g).1 d cs (2 * cs.length + 1) h (le_refl _))

/-! ## The claims -/

/-- C1 (fails on the code): the path `/+1234567` leaves, once its leading slash
is stripped, 8 bytes that are not all digits, and yet the validation of
main.go lets it through, because `strconv.ParseInt` accepts a sign: whatever
the collaborators answer, the handler requests the resolver for the signed
text and does not answer 422. The same holds with the sign `-`. -/
theorem C1_signed_code_passes_validation {σ : Type} (client : Client σ)
    (viaCEPURL weatherAPIURL : String) (env : String → Option String) (w : σ) :
    len "+1234567" = 8 ∧ ¬ IsPostalCode "+1234567" ∧
    (weatherHandler client viaCEPURL weatherAPIURL env "/+1234567" w).response.status ≠ 422 ∧
    (weatherHandler client viaCEPURL weatherAPIURL env "/+1234567" w).calls.head?
      = some (Sprintf viaCEPURL ["+1234567"]) ∧
    (weatherHandler client viaCEPURL weatherAPIURL env "/-1234567" w).response.status ≠ 422 ∧
    (weatherHandler client viaCEPURL weatherAPIURL env "/-1234567" w).calls.head?
      = some (Sprintf viaCEPURL ["-1234567"]) := by
  have hp : Validates "/+1234567" := by decide
  have hm : Validates "/-1234567" := by decide
  refine ⟨by decide, by decide, ?_, ?_, ?_, ?_⟩
  · rcases handler_classify client viaCEPURL weatherAPIURL env "/+1234567" w hp with
      ⟨_, h⟩ | ⟨_, h | h, _⟩ <;> rw [h] <;> decide
  · exact handler_calls_head client viaCEPURL weatherAPIURL env "/+1234567" w hp
  · rcases handler_classify client viaCEPURL weatherAPIURL env "/-1234567" w hm with
      ⟨_, h⟩ | ⟨_, h | h, _⟩ <;> rw [h] <;> decide
  · exact handler_calls_head client viaCEPURL weatherAPIURL env "/-1234567" w hm

/-- C2: for every string `d` of exactly 8 ASCII digits, the request `/d`
passes validation (the answer is not 422) and the first URL the handler
requests is the resolver template formatted with `d` itself as its one
operand; for a template `pre%spost` whose other text has no `%`, that URL is
`pre`, then `d` character for character, then `post`. -/
theorem C2_postal_code_substituted_verbatim {σ : Type} (client : Client σ)
    (weatherAPIURL : String) (env : String → Option String) (w : σ) (d : String)
    (hd : IsPostalCode d) :
    (∀ viaCEPURL : String,
      (weatherHandler client viaCEPURL weatherAPIURL env ("/" ++ d) w).response.status ≠ 422 ∧
      (weatherHandler client viaCEPURL weatherAPIURL env ("/" ++ d) w).calls.head?
        = some (Sprintf viaCEPURL [d])) ∧
    (∀ pre post : String, '%' ∉ pre.data → '%' ∉ post.data →
      Sprintf (pre ++ "%s" ++ post) [d] = pre ++ d ++ post) := by
  have hv := validates_postalCode hd
  refine ⟨fun viaCEPURL => ⟨?_, ?_⟩, fun pre post h1 h2 => sprintf_one_verb pre post d h1 h2⟩
  · rcases handler_classify client viaCEPURL weatherAPIURL env ("/" ++ d) w hv with
      ⟨_, h⟩ | ⟨_, h | h, _⟩ <;> rw [h] <;> decide
  · rw [handler_calls_head client viaCEPURL weatherAPIURL env ("/" ++ d) w hv, viaURLOf_slash]

/-- Witness of C2 at the postal code `01001000` with the templates of `main`:
the resolver is asked for `https://viacep.com.br/ws/01001000/json/`. -/
theorem C2_witness :
    IsPostalCode "01001000" ∧
    ((weatherHandler scriptClient mainViaCEPURL mainWeatherAPIURL envWithoutKey
        ("/" ++ "01001000") []).response.status ≠ 422 ∧
     (weatherHandler scriptClient mainViaCEPURL mainWeatherAPIURL envWithoutKey
        ("/" ++ "01001000") []).calls.head? = some (Sprintf mainViaCEPURL ["01001000"])) ∧
    Sprintf ("https://viacep.com.br/ws/" ++ "%s" ++ "/json/") ["01001000"]
      = "https://viacep.com.br/ws/" ++ "01001000" ++ "/json/" :=
  ⟨by decide,
   (C2_postal_code_substituted_verbatim scriptClient mainWeatherAPIURL envWithoutKey []
      "01001000" (by decide)).1 mainViaCEPURL,
   (C2_postal_code_substituted_verbatim scriptClient mainWeatherAPIURL envWithoutKey []
      "01001000" (by decide)).2 "https://viacep.com.br/ws/" "/json/" (by decide) (by decide)⟩

/-- C4: for every 8-digit postal code `d`, when the resolver answers and its
body decodes to a `ViaCEPResponse` with a non-empty `Erro` or an empty
`Localidade`, the handler answers 404 with the body `can not find zipcode`
and a newline, in every environment (whatever `WEATHER_API_KEY` is), and the
resolver URL is the only one it requested. -/
theorem C4_resolver_not_found {σ : Type} (client : Client σ) (viaCEPURL weatherAPIURL : String)
    (env : String → Option String) (w : σ) (d : String) (hd : IsPostalCode d)
    (viaResp : HTTPResponse) (w1 : σ) (via : ViaCEPResponse)
    (hGet : client.Get (Sprintf viaCEPURL [d]) w = (.ok viaResp, w1))
    (hDec : decodeViaCEP viaResp.Body = some via)
    (hNF : via.Erro ≠ "" ∨ via.Localidade = "") :
    (weatherHandler client viaCEPURL weatherAPIURL env ("/" ++ d) w).response.status = 404 ∧
    (weatherHandler client viaCEPURL weatherAPIURL env ("/" ++ d) w).response.body
      = .text "can not find zipcode\n" ∧
    (weatherHandler client viaCEPURL weatherAPIURL env ("/" ++ d) w).calls
      = [Sprintf viaCEPURL [d]] := by
  rw [← viaURLOf_slash] at hGet
  rw [handler_notFound client viaCEPURL weatherAPIURL env ("/" ++ d) w (validates_postalCode hd)
    hGet hDec hNF, viaURLOf_slash]
  exact ⟨rfl, rfl, rfl⟩

/-- Witness of C4: the resolver body `{"erro": "true"}` for the path `/00000000`. -/
theorem C4_witness :
    decodeViaCEP "\x7b\"erro\": \"true\"\x7d\n" = some ⟨"", "", "", "", "true"⟩ ∧
    (weatherHandler scriptClient mainViaCEPURL mainWeatherAPIURL (envWithKey "fake_key")
      ("/" ++ "00000000") [.ok ⟨200, "\x7b\"erro\": \"true\"\x7d\n"⟩]).response.status = 404 ∧
    (weatherHandler scriptClient mainViaCEPURL mainWeatherAPIURL (envWithKey "fake_key")
      ("/" ++ "00000000") [.ok ⟨200, "\x7b\"erro\": \"true\"\x7d\n"⟩]).response.body
      = .text "can not find zipcode\n" ∧
    (weatherHandler scriptClient mainViaCEPURL mainWeatherAPIURL (envWithKey "fake_key")
      ("/" ++ "00000000") [.ok ⟨200, "\x7b\"erro\": \"true\"\x7d\n"⟩]).calls
      = [Sprintf mainViaCEPURL ["00000000"]] :=
  ⟨by decide,
   C4_resolver_not_found scriptClient mainViaCEPURL mainWeatherAPIURL (envWithKey "fake_key")
     [.ok ⟨200, "\x7b\"erro\": \"true\"\x7d\n"⟩] "00000000" (by decide)
     ⟨200, "\x7b\"erro\": \"true\"\x7d\n"⟩ [] ⟨"", "", "", "", "true"⟩ rfl (by decide)
     (Or.inl (by decide))⟩

/-- C5: for every 8-digit postal code `d` whose resolver call answers with a
body that decodes to an empty `Erro` and a non-empty `Localidade`, when
`WEATHER_API_KEY` is not set or is empty the handler answers 500 with the
body `internal server error: API key missing` and a newline, and the
resolver URL is the only URL it requested: the weather provider is not
called. -/
theorem C5_api_key_missing {σ : Type} (client : Client σ) (viaCEPURL weatherAPIURL : String)
    (env : String → Option String) (w : σ) (d : String) (hd : IsPostalCode d)
    (viaResp : HTTPResponse) (w1 : σ) (via : ViaCEPResponse)
    (hGet : client.Get (Sprintf viaCEPURL [d]) w = (.ok viaResp, w1))
    (hDec : decodeViaCEP viaResp.Body = some via)
    (hE : via.Erro = "") (hL : via.Localidade ≠ "")
    (hKey : env "WEATHER_API_KEY" = none ∨ env "WEATHER_API_KEY" = some "") :
    (weatherHandler client viaCEPURL weatherAPIURL env ("/" ++ d) w).response.status = 500 ∧
    (weatherHandler client viaCEPURL weatherAPIURL env ("/" ++ d) w).response.body
      = .text "internal server error: API key missing\n" ∧
    (weatherHandler client viaCEPURL weatherAPIURL env ("/" ++ d) w).calls
      = [Sprintf viaCEPURL [d]] := by
  rw [← viaURLOf_slash] at hGet
  rw [handler_keyMissing client viaCEPURL weatherAPIURL env ("/" ++ d) w (validates_postalCode hd)
    hGet hDec hE hL (getenv_empty hKey), viaURLOf_slash]
  exact ⟨rfl, rfl, rfl⟩

/-- Witness of C5: the resolver finds São Paulo for `/01001000`, the key is not
set, and a weather answer is waiting that the handler never asks for. -/
theorem C5_witness :
    (weatherHandler scriptClient mainViaCEPURL mainWeatherAPIURL envWithoutKey
      ("/" ++ "01001000")
      [.ok ⟨200, "\x7b\"localidade\": \"São Paulo\"\x7d\n"⟩,
       .ok ⟨200, "\x7b\"current\": \x7b\"temp_c\": 25.0\x7d\x7d\n"⟩]).response.status = 500 ∧
    (weatherHandler scriptClient mainViaCEPURL mainWeatherAPIURL envWithoutKey
      ("/" ++ "01001000")
      [.ok ⟨200, "\x7b\"localidade\": \"São Paulo\"\x7d\n"⟩,
       .ok ⟨200, "\x7b\"current\": \x7b\"temp_c\": 25.0\x7d\x7d\n"⟩]).response.body
      = .text "internal server error: API key missing\n" ∧
    (weatherHandler scriptClient mainViaCEPURL mainWeatherAPIURL envWithoutKey
      ("/" ++ "01001000")
      [.ok ⟨200, "\x7b\"localidade\": \"São Paulo\"\x7d\n"⟩,
       .ok ⟨200, "\x7b\"current\": \x7b\"temp_c\": 25.0\x7d\x7d\n"⟩]).calls
      = [Sprintf mainViaCEPURL ["01001000"]] :=
  C5_api_key_missing scriptClient mainViaCEPURL mainWeatherAPIURL envWithoutKey
    [.ok ⟨200, "\x7b\"localidade\": \"São Paulo\"\x7d\n"⟩,
     .ok ⟨200, "\x7b\"current\": \x7b\"temp_c\": 25.0\x7d\x7d\n"⟩] "01001000" (by decide)
    ⟨200, "\x7b\"localidade\": \"São Paulo\"\x7d\n"⟩
    [.ok ⟨200, "\x7b\"current\": \x7b\"temp_c\": 25.0\x7d\x7d\n"⟩]
    ⟨"", "", "São Paulo", "", ""⟩ rfl (by decide) rfl (by decide) (Or.inl rfl)

/-- C6: for every request that reaches the weather lookup (the path passes
validation, the resolver answered with a locality and no error flag, the key
is not empty) and every weather answer whose status code is not 200, the
handler answers 404 with the body `can not find weather for location` and a
newline, whatever the body of that answer is; the message decoded from the
body goes to the printed line only. -/
theorem C6_weather_status_not_ok {σ : Type} (client : Client σ)
    (viaCEPURL weatherAPIURL : String) (env : String → Option String) (path : String) (w : σ)
    (hv : Validates path) (viaResp : HTTPResponse) (w1 : σ) (via : ViaCEPResponse)
    (hGet : client.Get (viaURLOf viaCEPURL path) w = (.ok viaResp, w1))
    (hDec : decodeViaCEP viaResp.Body = some via)
    (hE : via.Erro = "") (hL : via.Localidade ≠ "")
    (hKey : Getenv env "WEATHER_API_KEY" ≠ "")
    (weatherResp : HTTPResponse) (w2 : σ)
    (hGet2 : client.Get (weatherURLOf weatherAPIURL env via) w1 = (.ok weatherResp, w2))
    (hStatus : weatherResp.StatusCode ≠ 200) :
    (weatherHandler client viaCEPURL weatherAPIURL env path w).response.status = 404 ∧
    (weatherHandler client viaCEPURL weatherAPIURL env path w).response.body
      = .text "can not find weather for location\n" ∧
    (weatherHandler client viaCEPURL weatherAPIURL env path w).log
      = [.weatherAPIError (decodeErrorResponse weatherResp.Body).ErrorMessage] := by
  rw [handler_weatherStatus client viaCEPURL weatherAPIURL env path w hv hGet hDec hE hL hKey
    hGet2 hStatus]
  exact ⟨rfl, rfl, rfl⟩

/-- Witness of C6: the weather provider answers 503 with a body that is not JSON. -/
theorem C6_witness :
    (weatherHandler scriptClient mainViaCEPURL mainWeatherAPIURL (envWithKey "fake_key")
      "/01001000"
      [.ok ⟨200, "\x7b\"localidade\": \"São Paulo\"\x7d\n"⟩,
       .ok ⟨503, "<html>Service Unavailable</html>"⟩]).response.status = 404 ∧
    (weatherHandler scriptClient mainViaCEPURL mainWeatherAPIURL (envWithKey "fake_key")
      "/01001000"
      [.ok ⟨200, "\x7b\"localidade\": \"São Paulo\"\x7d\n"⟩,
       .ok ⟨503, "<html>Service Unavailable</html>"⟩]).response.body
      = .text "can not find weather for location\n" ∧
    (weatherHandler scriptClient mainViaCEPURL mainWeatherAPIURL (envWithKey "fake_key")
      "/01001000"
      [.ok ⟨200, "\x7b\"localidade\": \"São Paulo\"\x7d\n"⟩,
       .ok ⟨503, "<html>Service Unavailable</html>"⟩]).log
      = [.weatherAPIError (decodeErrorResponse "<html>Service Unavailable</html>").ErrorMessage] :=
  C6_weather_status_not_ok scriptClient mainViaCEPURL mainWeatherAPIURL (envWithKey "fake_key")
    "/01001000"
    [.ok ⟨200, "\x7b\"localidade\": \"São Paulo\"\x7d\n"⟩,
     .ok ⟨503, "<html>Service Unavailable</html>"⟩] (by decide)
    ⟨200, "\x7b\"localidade\": \"São Paulo\"\x7d\n"⟩
    [.ok ⟨503, "<html>Service Unavailable</html>"⟩]
    ⟨"", "", "São Paulo", "", ""⟩ rfl (by decide) rfl (by decide) (by decide)
    ⟨503, "<html>Service Unavailable</html>"⟩ [] rfl (by decide)

/-- C7: for every 8-digit postal code `d`, a run where the resolver call fails
at the transport level and a run where the resolver answers with a parsed
not-found result (non-empty `Erro` or empty `Localidade`) write the same
response: status 404 and the body `can not find zipcode` with a newline. -/
theorem C7_transport_failure_like_not_found {σ : Type} (client1 client2 : Client σ)
    (viaCEPURL weatherAPIURL : String) (env1 env2 : String → Option String) (w1 w2 : σ)
    (d : String) (hd : IsPostalCode d) (err : String) (w1a : σ)
    (hFail : client1.Get (Sprintf viaCEPURL [d]) w1 = (.error err, w1a))
    (viaResp : HTTPResponse) (w2a : σ) (via : ViaCEPResponse)
    (hGet : client2.Get (Sprintf viaCEPURL [d]) w2 = (.ok viaResp, w2a))
    (hDec : decodeViaCEP viaResp.Body = some via)
    (hNF : via.Erro ≠ "" ∨ via.Localidade = "") :
    (weatherHandler client1 viaCEPURL weatherAPIURL env1 ("/" ++ d) w1).response
      = (weatherHandler client2 viaCEPURL weatherAPIURL env2 ("/" ++ d) w2).response ∧
    (weatherHandler client1 viaCEPURL weatherAPIURL env1 ("/" ++ d) w1).response.status = 404 ∧
    (weatherHandler client1 viaCEPURL weatherAPIURL env1 ("/" ++ d) w1).response.body
      = .text "can not find zipcode\n" := by
  rw [← viaURLOf_slash] at hFail hGet
  rw [handler_viaFetchError client1 viaCEPURL weatherAPIURL env1 ("/" ++ d) w1
      (validates_postalCode hd) hFail,
    handler_notFound client2 viaCEPURL weatherAPIURL env2 ("/" ++ d) w2
      (validates_postalCode hd) hGet hDec hNF]
  exact ⟨rfl, rfl, rfl⟩

/-- Witness of C7: an unreachable resolver against one answering `{"erro": "true"}`. -/
theorem C7_witness :
    (weatherHandler scriptClient mainViaCEPURL mainWeatherAPIURL envWithoutKey
      ("/" ++ "00000000") [.error "connection refused"]).response
      = (weatherHandler scriptClient mainViaCEPURL mainWeatherAPIURL envWithoutKey
          ("/" ++ "00000000") [.ok ⟨200, "\x7b\"erro\": \"true\"\x7d\n"⟩]).response ∧
    (weatherHandler scriptClient mainViaCEPURL mainWeatherAPIURL envWithoutKey
      ("/" ++ "00000000") [.error "connection refused"]).response.status = 404 ∧
    (weatherHandler scriptClient mainViaCEPURL mainWeatherAPIURL envWithoutKey
      ("/" ++ "00000000") [.error "connection refused"]).response.body
      = .text "can not find zipcode\n" :=
  C7_transport_failure_like_not_found scriptClient scriptClient mainViaCEPURL mainWeatherAPIURL
    envWithoutKey envWithoutKey [.error "connection refused"]
    [.ok ⟨200, "\x7b\"erro\": \"true\"\x7d\n"⟩] "00000000" (by decide) "connection refused" []
    rfl ⟨200, "\x7b\"erro\": \"true\"\x7d\n"⟩ [] ⟨"", "", "", "", "true"⟩ rfl (by decide)
    (Or.inl (by decide))

/-- C8: for every request that reaches the weather lookup, when the weather
call fails at the transport level, or answers with status 200 and a body
whose decoding returns an error, the handler answers 500 with the body
`internal server error: weather API failure` and a newline. -/
theorem C8_weather_failure {σ : Type} (client : Client σ)
    (viaCEPURL weatherAPIURL : String) (env : String → Option String) (path : String) (w : σ)
    (hv : Validates path) (viaResp : HTTPResponse) (w1 : σ) (via : ViaCEPResponse)
    (hGet : client.Get (viaURLOf viaCEPURL path) w = (.ok viaResp, w1))
    (hDec : decodeViaCEP viaResp.Body = some via)
    (hE : via.Erro = "") (hL : via.Localidade ≠ "")
    (hKey : Getenv env "WEATHER_API_KEY" ≠ "")
    (hFail : (∃ (err : String) (w2 : σ),
        client.Get (weatherURLOf weatherAPIURL env via) w1 = (.error err, w2)) ∨
      (∃ (weatherResp : HTTPResponse) (w2 : σ),
        client.Get (weatherURLOf weatherAPIURL env via) w1 = (.ok weatherResp, w2) ∧
        weatherResp.StatusCode = 200 ∧ decodeWeather weatherResp.Body = none)) :
    (weatherHandler client viaCEPURL weatherAPIURL env path w).response.status = 500 ∧
    (weatherHandler client viaCEPURL weatherAPIURL env path w).response.body
      = .text "internal server error: weather API failure\n" := by
  rcases hFail with ⟨err, w2, hGet2⟩ | ⟨weatherResp, w2, hGet2, hStatus, hDec2⟩
  · rw [handler_weatherFetchError client viaCEPURL weatherAPIURL env path w hv hGet hDec hE hL
      hKey hGet2]
    exact ⟨rfl, rfl⟩
  · rw [handler_weatherDecodeError client viaCEPURL weatherAPIURL env path w hv hGet hDec hE hL
      hKey hGet2 hStatus hDec2]
    exact ⟨rfl, rfl⟩

/-- Witness of C8, both cases: the weather call fails at the transport level,
and the weather provider answers 200 with a `temp_c` that is a string. -/
theorem C8_witness :
    ((weatherHandler scriptClient mainViaCEPURL mainWeatherAPIURL (envWithKey "fake_key")
        "/01001000"
        [.ok ⟨200, "\x7b\"localidade\": \"São Paulo\"\x7d\n"⟩,
         .error "connection reset"]).response.status = 500 ∧
     (weatherHandler scriptClient mainViaCEPURL mainWeatherAPIURL (envWithKey "fake_key")
        "/01001000"
        [.ok ⟨200, "\x7b\"localidade\": \"São Paulo\"\x7d\n"⟩,
         .error "connection reset"]).response.body
        = .text "internal server error: weather API failure\n") ∧
    ((weatherHandler scriptClient mainViaCEPURL mainWeatherAPIURL (envWithKey "fake_key")
        "/01001000"
        [.ok ⟨200, "\x7b\"localidade\": \"São Paulo\"\x7d\n"⟩,
         .ok ⟨200, "\x7b\"current\": \x7b\"temp_c\": \"warm\"\x7d\x7d"⟩]).response.status = 500 ∧
     (weatherHandler scriptClient mainViaCEPURL mainWeatherAPIURL (envWithKey "fake_key")
        "/01001000"
        [.ok ⟨200, "\x7b\"localidade\": \"São Paulo\"\x7d\n"⟩,
         .ok ⟨200, "\x7b\"current\": \x7b\"temp_c\": \"warm\"\x7d\x7d"⟩]).response.body
        = .text "internal server error: weather API failure\n") :=
  ⟨C8_weather_failure scriptClient mainViaCEPURL mainWeatherAPIURL (envWithKey "fake_key")
     "/01001000"
     [.ok ⟨200, "\x7b\"localidade\": \"São Paulo\"\x7d\n"⟩, .error "connection reset"]
     (by decide) ⟨200, "\x7b\"localidade\": \"São Paulo\"\x7d\n"⟩ [.error "connection reset"]
     ⟨"", "", "São Paulo", "", ""⟩ rfl (by decide) rfl (by decide) (by decide)
     (Or.inl ⟨"connection reset", [], rfl⟩),
   C8_weather_failure scriptClient mainViaCEPURL mainWeatherAPIURL (envWithKey "fake_key")
     "/01001000"
     [.ok ⟨200, "\x7b\"localidade\": \"São Paulo\"\x7d\n"⟩,
      .ok ⟨200, "\x7b\"current\": \x7b\"temp_c\": \"warm\"\x7d\x7d"⟩]
     (by decide) ⟨200, "\x7b\"localidade\": \"São Paulo\"\x7d\n"⟩
     [.ok ⟨200, "\x7b\"current\": \x7b\"temp_c\": \"warm\"\x7d\x7d"⟩]
     ⟨"", "", "São Paulo", "", ""⟩ rfl (by decide) rfl (by decide) (by decide)
     (Or.inr ⟨⟨200, "\x7b\"current\": \x7b\"temp_c\": \"warm\"\x7d\x7d"⟩, [], rfl, rfl,
       by decide⟩)⟩

/-- C9: for every request and every behaviour of the collaborators, the
handler answers 200 exactly when the path passes validation, the resolver
call succeeds and its body decodes with an empty `Erro` and a non-empty
`Localidade`, `WEATHER_API_KEY` is not empty, and the weather call succeeds
with status 200 and a body that decodes; in every other case the status is
422, 404 or 500 and the body is one of the six fixed messages followed by a
newline (plain text, no temperature in it). -/
theorem C9_success_all_or_nothing {σ : Type} (client : Client σ)
    (viaCEPURL weatherAPIURL : String) (env : String → Option String) (path : String) (w : σ) :
    ((weatherHandler client viaCEPURL weatherAPIURL env path w).response.status = 200 ↔
      FullSuccess client viaCEPURL weatherAPIURL env path w) ∧
    (¬ FullSuccess client viaCEPURL weatherAPIURL env path w →
      ((weatherHandler client viaCEPURL weatherAPIURL env path w).response.status = 422 ∨
       (weatherHandler client viaCEPURL weatherAPIURL env path w).response.status = 404 ∨
       (weatherHandler client viaCEPURL weatherAPIURL env path w).response.status = 500) ∧
      ∃ m ∈ errorMessages,
        (weatherHandler client viaCEPURL weatherAPIURL env path w).response.body
          = .text (m ++ "\n")) := by
  by_cases hv : Validates path
  · rcases handler_classify client viaCEPURL weatherAPIURL env path w hv with
      ⟨hs, h200⟩ | ⟨hns, hst, hbody⟩
    · exact ⟨⟨fun _ => hs, fun _ => h200⟩, fun hn => absurd hs hn⟩
    · refine ⟨⟨fun h200 => ?_, fun hs => absurd hs hns⟩, fun _ => ⟨Or.inr hst, hbody⟩⟩
      rcases hst with h | h <;> rw [h] at h200 <;> exact absurd h200 (by decide)
  · have hns : ¬ FullSuccess client viaCEPURL weatherAPIURL env path w := fun hs => hv hs.1
    rw [handler_invalid client viaCEPURL weatherAPIURL env path w hv]
    have h422 : (httpError "invalid zipcode" 422).status ≠ 200 := by decide
    refine ⟨⟨fun h200 => absurd h200 h422, fun hs => absurd hs hns⟩,
      fun _ => ⟨Or.inl rfl, "invalid zipcode", by simp [errorMessages], rfl⟩⟩

/-- C10 (as stated, fails): the body `{"current": 1}` is a JSON object with no
`current.temp_c`, and yet it is a decode failure: a number cannot be stored
into the struct `Current`, `Decode` returns an error and the handler answers
500 `internal server error: weather API failure`. -/
theorem C10_counterexample_current_not_object :
    readValue "\x7b\"current\": 1\x7d" = some (.object [("current", .number "1")]) ∧
    (weatherHandler scriptClient mainViaCEPURL mainWeatherAPIURL (envWithKey "fake_key")
      "/01001000"
      [.ok ⟨200, "\x7b\"localidade\": \"São Paulo\"\x7d\n"⟩,
       .ok ⟨200, "\x7b\"current\": 1\x7d"⟩]).response
      = { status := 500, contentType := "text/plain; charset=utf-8",
          body := .text "internal server error: weather API failure\n" } :=
  ⟨rfl, by decide⟩

/-- C10 (amended): for a request that reaches the weather lookup, a weather
answer with status 200 whose body the decoder reads as a JSON object in which
every member selecting `current` (by its key, up to letter case) is `null`
or an object with no member selecting `temp_c` is not a decode failure: the
handler answers 200 with the JSON object `temp_C = 0`, `temp_F = 32`,
`temp_K = 273`, computed from the zero value of the missing field. The
bodies `{}` and `{"current": {}}` are of this kind. -/
theorem C10_missing_temp_c_is_zero {σ : Type} (client : Client σ)
    (viaCEPURL weatherAPIURL : String) (env : String → Option String) (path : String) (w : σ)
    (hv : Validates path) (viaResp : HTTPResponse) (w1 : σ) (via : ViaCEPResponse)
    (hGet : client.Get (viaURLOf viaCEPURL path) w = (.ok viaResp, w1))
    (hDec : decodeViaCEP viaResp.Body = some via)
    (hE : via.Erro = "") (hL : via.Localidade ≠ "")
    (hKey : Getenv env "WEATHER_API_KEY" ≠ "")
    (weatherResp : HTTPResponse) (w2 : σ)
    (hGet2 : client.Get (weatherURLOf weatherAPIURL env via) w1 = (.ok weatherResp, w2))
    (hStatus : weatherResp.StatusCode = 200)
    (ms : List (String × JSON))
    (hRead : readValue weatherResp.Body = some (.object ms))
    (hLack : lacksCurrentTempC ms = true) :
    (weatherHandler client viaCEPURL weatherAPIURL env path w).response
      = { status := 200, contentType := "application/json",
          body := .json [("temp_C", F64.ofNat 0), ("temp_F", F64.ofNat 32),
            ("temp_K", F64.ofNat 273)] } := by
  have hDec2 : decodeWeather weatherResp.Body = some WeatherAPIResponse.zero :=
    decodeWeather_lacks hRead hLack
  rw [handler_success client viaCEPURL weatherAPIURL env path w hv hGet hDec hE hL hKey hGet2
    hStatus hDec2]
  have hb : encodeMap [("temp_C", WeatherAPIResponse.zero.CurrentTempC),
      ("temp_F", fahrenheit WeatherAPIResponse.zero.CurrentTempC),
      ("temp_K", kelvin WeatherAPIResponse.zero.CurrentTempC)]
      = .json [("temp_C", F64.ofNat 0), ("temp_F", F64.ofNat 32), ("temp_K", F64.ofNat 273)] := by
    decide!
  simp only [hb]

/-- Witness of C10: the weather provider answers 200 with the body `{}`, and
with the body `{"current": {}}`. -/
theorem C10_witness :
    (weatherHandler scriptClient mainViaCEPURL mainWeatherAPIURL (envWithKey "fake_key")
      "/01001000"
      [.ok ⟨200, "\x7b\"localidade\": \"São Paulo\"\x7d\n"⟩, .ok ⟨200, "\x7b\x7d"⟩]).response
      = { status := 200, contentType := "application/json",
          body := .json [("temp_C", F64.ofNat 0), ("temp_F", F64.ofNat 32),
            ("temp_K", F64.ofNat 273)] } ∧
    (weatherHandler scriptClient mainViaCEPURL mainWeatherAPIURL (envWithKey "fake_key")
      "/01001000"
      [.ok ⟨200, "\x7b\"localidade\": \"São Paulo\"\x7d\n"⟩,
       .ok ⟨200, "\x7b\"current\": \x7b\x7d\x7d"⟩]).response
      = { status := 200, contentType := "application/json",
          body := .json [("temp_C", F64.ofNat 0), ("temp_F", F64.ofNat 32),
            ("temp_K", F64.ofNat 273)] } :=
  ⟨C10_missing_temp_c_is_zero scriptClient mainViaCEPURL mainWeatherAPIURL
     (envWithKey "fake_key") "/01001000"
     [.ok ⟨200, "\x7b\"localidade\": \"São Paulo\"\x7d\n"⟩, .ok ⟨200, "\x7b\x7d"⟩] (by decide)
     ⟨200, "\x7b\"localidade\": \"São Paulo\"\x7d\n"⟩ [.ok ⟨200, "\x7b\x7d"⟩]
     ⟨"", "", "São Paulo", "", ""⟩ rfl (by decide) rfl (by decide) (by decide)
     ⟨200, "\x7b\x7d"⟩ [] rfl rfl [] rfl rfl,
   C10_missing_temp_c_is_zero scriptClient mainViaCEPURL mainWeatherAPIURL
     (envWithKey "fake_key") "/01001000"
     [.ok ⟨200, "\x7b\"localidade\": \"São Paulo\"\x7d\n"⟩,
      .ok ⟨200, "\x7b\"current\": \x7b\x7d\x7d"⟩] (by decide)
     ⟨200, "\x7b\"localidade\": \"São Paulo\"\x7d\n"⟩
     [.ok ⟨200, "\x7b\"current\": \x7b\x7d\x7d"⟩]
     ⟨"", "", "São Paulo", "", ""⟩ rfl (by decide) rfl (by decide) (by decide)
     ⟨200, "\x7b\"current\": \x7b\x7d\x7d"⟩ [] rfl rfl [("current", .object [])] rfl rfl⟩

/-- C3 (as stated, fails): the weather provider answers 200 with
`{"current": {"temp_c": 1e308}}`; the reading decodes to the float64 1e308,
`c*1.8` overflows so `temp_F` is +Inf, `Encode` refuses the map, and the
handler has answered 200 with an empty body, not with a JSON object of
three keys. -/
theorem C3_counterexample_overflow :
    decodeWeather "\x7b\"current\": \x7b\"temp_c\": 1e308\x7d\x7d\n"
      = some ⟨F64.ofDecimal false 1 308⟩ ∧
    fahrenheit (F64.ofDecimal false 1 308) = .inf false ∧
    (weatherHandler scriptClient mainViaCEPURL mainWeatherAPIURL (envWithKey "fake_key")
      "/01001000"
      [.ok ⟨200, "\x7b\"localidade\": \"São Paulo\"\x7d\n"⟩,
       .ok ⟨200, "\x7b\"current\": \x7b\"temp_c\": 1e308\x7d\x7d\n"⟩]).response
      = { status := 200, contentType := "application/json", body := .text "" } := by
  decide!

/-- C3 (amended): on the full-success path, for every Celsius reading `c`
decoded from the weather provider whose `c*1.8 + 32` does not overflow
float64 (it is finite), the handler answers 200 with content type
`application/json` and the JSON object of exactly the three keys
`temp_C = c`, `temp_F = c*1.8 + 32` and `temp_K = c + 273` (offset 273); and
when `c` is 25 the three values are exactly 25, 77 and 298. -/
theorem C3_success_triple {σ : Type} (client : Client σ)
    (viaCEPURL weatherAPIURL : String) (env : String → Option String) (path : String) (w : σ)
    (hv : Validates path) (viaResp : HTTPResponse) (w1 : σ) (via : ViaCEPResponse)
    (hGet : client.Get (viaURLOf viaCEPURL path) w = (.ok viaResp, w1))
    (hDec : decodeViaCEP viaResp.Body = some via)
    (hE : via.Erro = "") (hL : via.Localidade ≠ "")
    (hKey : Getenv env "WEATHER_API_KEY" ≠ "")
    (weatherResp : HTTPResponse) (w2 : σ)
    (hGet2 : client.Get (weatherURLOf weatherAPIURL env via) w1 = (.ok weatherResp, w2))
    (hStatus : weatherResp.StatusCode = 200) (weather : WeatherAPIResponse)
    (hDec2 : decodeWeather weatherResp.Body = some weather)
    (hF : (F64.add (F64.mul weather.CurrentTempC (F64.ofDecimal false 18 (-1)))
      (F64.ofNat 32)).isInfOrNaN = false) :
    (weatherHandler client viaCEPURL weatherAPIURL env path w).response
      = { status := 200, contentType := "application/json",
          body := .json [("temp_C", weather.CurrentTempC),
            ("temp_F", F64.add (F64.mul weather.CurrentTempC (F64.ofDecimal false 18 (-1)))
              (F64.ofNat 32)),
            ("temp_K", F64.add weather.CurrentTempC (F64.ofNat 273))] } ∧
    (weather.CurrentTempC = F64.ofNat 25 →
      (weatherHandler client viaCEPURL weatherAPIURL env path w).response.body
        = .json [("temp_C", F64.ofNat 25), ("temp_F", F64.ofNat 77),
            ("temp_K", F64.ofNat 298)]) := by
  have hC := F64.isInfOrNaN_of_bounded (decodeWeather_bounded hDec2)
  have hK := F64.add_273_finite (decodeWeather_bounded hDec2)
  have hb : encodeMap [("temp_C", weather.CurrentTempC),
      ("temp_F", fahrenheit weather.CurrentTempC), ("temp_K", kelvin weather.CurrentTempC)]
      = .json [("temp_C", weather.CurrentTempC),
          ("temp_F", F64.add (F64.mul weather.CurrentTempC (F64.ofDecimal false 18 (-1)))
            (F64.ofNat 32)),
          ("temp_K", F64.add weather.CurrentTempC (F64.ofNat 273))] := by
    unfold fahrenheit kelvin at *
    simp [encodeMap, hC, hF, hK]
  rw [handler_success client viaCEPURL weatherAPIURL env path w hv hGet hDec hE hL hKey hGet2
    hStatus hDec2]
  simp only [hb]
  refine ⟨trivial, fun h25 => ?_⟩
  rw [h25]
  decide!

/-- Witness of C3: the run of `TestWeatherHandler_Success`, São Paulo at 25.0
degrees Celsius, answered with 25, 77 and 298. -/
theorem C3_witness :
    (weatherHandler scriptClient mainViaCEPURL mainWeatherAPIURL (envWithKey "fake_key")
      "/01001000"
      [.ok ⟨200, "\x7b\"localidade\": \"São Paulo\"\x7d\n"⟩,
       .ok ⟨200, "\x7b\"current\": \x7b\"temp_c\": 25.0\x7d\x7d\n"⟩]).response.body
      = .json [("temp_C", F64.ofNat 25), ("temp_F", F64.ofNat 77), ("temp_K", F64.ofNat 298)] :=
  (C3_success_triple scriptClient mainViaCEPURL mainWeatherAPIURL (envWithKey "fake_key")
    "/01001000"
    [.ok ⟨200, "\x7b\"localidade\": \"São Paulo\"\x7d\n"⟩,
     .ok ⟨200, "\x7b\"current\": \x7b\"temp_c\": 25.0\x7d\x7d\n"⟩] (by decide)
    ⟨200, "\x7b\"localidade\": \"São Paulo\"\x7d\n"⟩
    [.ok ⟨200, "\x7b\"current\": \x7b\"temp_c\": 25.0\x7d\x7d\n"⟩]
    ⟨"", "", "São Paulo", "", ""⟩ rfl (by decide) rfl (by decide) (by decide)
    ⟨200, "\x7b\"current\": \x7b\"temp_c\": 25.0\x7d\x7d\n"⟩ [] rfl rfl
    ⟨F64.ofNat 25⟩ (by decide!) (by decide!)).2 rfl

end CepWeather
